import Mathlib

set_option maxRecDepth 8000

/-!
Shallow embedding of the simplezarr read-path library (Rust) and proofs
about its chunk pipeline, index math, codec layer and metadata parsers.

Modelling conventions:
* Rust byte slices become `List Nat` with the invariant that entries are
  below 256 (all concrete inputs respect it).
* Rust `f16` / `f32` / `f64` values are modelled semantically by `Fl`:
  a finite dyadic rational, NaN, or a signed infinity.  The modelled code
  paths perform no rounding arithmetic on floats - only bit decoding and
  exact widening casts - so the dyadic representation is faithful.
* Fallible Rust functions returning `ZarrResult` become `Except ZarrError`.
* External compression libraries (flate2, zstd, lz4_flex, blosc FFI) are
  not part of the repository; they are abstracted by an `ExtLib` record of
  their byte-transforming functions, and round-trip claims take the
  documented library contracts as hypotheses.
-/

namespace SimpleZarr

-- ---------------------------------------------------------------------------
-- Semantic float values
-- ---------------------------------------------------------------------------

/-- Semantic model of an IEEE-754 floating-point value: a finite dyadic
rational `m * 2 ^ e` (every value in the modelled code paths is dyadic),
a NaN, or a signed infinity.  Finite values are kept normalized (mantissa
odd, or `0 * 2 ^ 0`) by constructing them through `mkFinite` only, so the
structural equality is value equality. -/
inductive Fl where
  | finite (m : Int) (e : Int)
  | nan
  | inf
  | neginf
deriving DecidableEq

/-- Strip factors of two from the mantissa into the exponent (the fuel is
an upper bound on the 2-adic valuation). -/
def oddifyGo : Nat → Int → Int → Int × Int
  | 0, m, e => (m, e)
  | fuel + 1, m, e => if m % 2 = 0 then oddifyGo fuel (m / 2) (e + 1) else (m, e)

/-- The normalized finite dyadic `m * 2 ^ e`. -/
def mkFinite (m : Int) (e : Int) : Fl :=
  if m = 0 then Fl.finite 0 0
  else
    let p := oddifyGo m.natAbs m e
    Fl.finite p.1 p.2

/-- Decode IEEE-754 bits with the given exponent and mantissa field widths
into the value they denote. -/
def ieeeDecode (expBits mantBits : Nat) (bits : Nat) : Fl :=
  let s := bits / 2 ^ (expBits + mantBits) % 2
  let e := bits / 2 ^ mantBits % 2 ^ expBits
  let m := bits % 2 ^ mantBits
  let bias : Int := (2 : Int) ^ (expBits - 1) - 1
  let sign : Int := if s = 1 then -1 else 1
  if e = 2 ^ expBits - 1 then
    if m = 0 then (if s = 1 then Fl.neginf else Fl.inf) else Fl.nan
  else
    if e = 0 then mkFinite (sign * m) (1 - bias - mantBits)
    else mkFinite (sign * ((2 : Int) ^ mantBits + m)) ((e : Int) - bias - mantBits)

/-- Rust `f16::from_bits`. -/
def f16FromBits (bits : Nat) : Fl := ieeeDecode 5 10 bits

/-- Rust `f32::from_bits` (the value read by `read_f32`). -/
def f32FromBits (bits : Nat) : Fl := ieeeDecode 8 23 bits

/-- Rust `f64::from_bits` (the value read by `read_f64`). -/
def f64FromBits (bits : Nat) : Fl := ieeeDecode 11 52 bits

-- ---------------------------------------------------------------------------
-- Byte helpers
-- ---------------------------------------------------------------------------

/-- Little-endian unsigned value of a byte list. -/
def leNat (bs : List Nat) : Nat := bs.foldr (fun b acc => b + 256 * acc) 0

/-- Big-endian unsigned value of a byte list. -/
def beNat (bs : List Nat) : Nat := leNat bs.reverse

/-- Reinterpret an unsigned value of bit width `w` as two's-complement. -/
def toSigned (w : Nat) (n : Nat) : Int :=
  let r := n % 2 ^ w
  if r < 2 ^ (w - 1) then (r : Int) else (r : Int) - 2 ^ w

/-- The 4-byte little-endian encoding of `n` (Rust `u32::to_le_bytes`). -/
def u32LeBytes (n : Nat) : List Nat :=
  [n % 256, n / 256 % 256, n / 2 ^ 16 % 256, n / 2 ^ 24 % 256]

-- ---------------------------------------------------------------------------
-- Endian / ArrayOrder / DataType  (src/types.rs)
-- ---------------------------------------------------------------------------

inductive Endian where
  | Little
  | Big
  | NotApplicable
deriving DecidableEq

inductive ArrayOrder where
  | C
  | F
deriving DecidableEq

inductive DataType where
  | Bool
  | Int8
  | Int16
  | Int32
  | Int64
  | UInt8
  | UInt16
  | UInt32
  | UInt64
  | Float16
  | Float32
  | Float64
  | Complex64
  | Complex128
  | String
  | Bytes
deriving DecidableEq

/-- Rust `DataType::byte_size`: bytes per element for fixed-size types. -/
def DataType.byte_size : DataType → Option Nat
  | .Bool => some 1
  | .Int8 => some 1
  | .Int16 => some 2
  | .Int32 => some 4
  | .Int64 => some 8
  | .UInt8 => some 1
  | .UInt16 => some 2
  | .UInt32 => some 4
  | .UInt64 => some 8
  | .Float16 => some 2
  | .Float32 => some 4
  | .Float64 => some 8
  | .Complex64 => some 8
  | .Complex128 => some 16
  | .String => none
  | .Bytes => none

-- ---------------------------------------------------------------------------
-- ZarrValue  (scalar)
-- ---------------------------------------------------------------------------

/-- Scalar value tagged by dtype (`ZarrValue` in src/types.rs).  Integer
variants carry mathematical integers; float variants carry semantic float
values; complex variants carry a (re, im) pair. -/
inductive ZarrValue where
  | Bool (b : Bool)
  | Int8 (v : Int)
  | Int16 (v : Int)
  | Int32 (v : Int)
  | Int64 (v : Int)
  | UInt8 (v : Nat)
  | UInt16 (v : Nat)
  | UInt32 (v : Nat)
  | UInt64 (v : Nat)
  | Float16 (v : Fl)
  | Float32 (v : Fl)
  | Float64 (v : Fl)
  | Complex64 (re im : Fl)
  | Complex128 (re im : Fl)
  | String (s : String)
  | Bytes (bs : List Nat)
  | Null (dt : DataType)
deriving DecidableEq

/-- Rust `ZarrValue::data_type`. -/
def ZarrValue.data_type : ZarrValue → DataType
  | .Bool _ => .Bool
  | .Int8 _ => .Int8
  | .Int16 _ => .Int16
  | .Int32 _ => .Int32
  | .Int64 _ => .Int64
  | .UInt8 _ => .UInt8
  | .UInt16 _ => .UInt16
  | .UInt32 _ => .UInt32
  | .UInt64 _ => .UInt64
  | .Float16 _ => .Float16
  | .Float32 _ => .Float32
  | .Float64 _ => .Float64
  | .Complex64 _ _ => .Complex64
  | .Complex128 _ _ => .Complex128
  | .String _ => .String
  | .Bytes _ => .Bytes
  | .Null dt => dt

/-- Rust `ZarrValue::to_f64`: lossy scalar conversion to f64.  Integer-to-float
casts are modelled exactly (no claim exercises a value beyond 2^53). -/
def ZarrValue.to_f64 : ZarrValue → Option Fl
  | .Bool true => some (mkFinite 1 0)
  | .Bool false => some (mkFinite 0 0)
  | .Int8 v => some (mkFinite v 0)
  | .Int16 v => some (mkFinite v 0)
  | .Int32 v => some (mkFinite v 0)
  | .Int64 v => some (mkFinite v 0)
  | .UInt8 v => some (mkFinite v 0)
  | .UInt16 v => some (mkFinite v 0)
  | .UInt32 v => some (mkFinite v 0)
  | .UInt64 v => some (mkFinite v 0)
  | .Float16 v => some v
  | .Float32 v => some v
  | .Float64 v => some v
  | .Complex64 re _ => some re
  | .Complex128 re _ => some re
  | .String _ => none
  | .Bytes _ => none
  | .Null _ => none

-- ---------------------------------------------------------------------------
-- FillValue  (src/types.rs)
-- ---------------------------------------------------------------------------

inductive FillValue where
  | Value (v : ZarrValue)
  | NaN
  | Infinity
  | NegativeInfinity
deriving DecidableEq

/-- Rust `FillValue::to_f64`: NaN / Infinity sentinels map to the corresponding
f64 special values; a scalar maps through `ZarrValue::to_f64`, defaulting
to 0.0 when the scalar has no f64 conversion. -/
def FillValue.to_f64 : FillValue → Fl
  | .Value v => (v.to_f64).getD (mkFinite 0 0)
  | .NaN => Fl.nan
  | .Infinity => Fl.inf
  | .NegativeInfinity => Fl.neginf

/-- Rust `default_scalar`: zero / false / empty scalar for a data type. -/
def default_scalar : DataType → ZarrValue
  | .Bool => .Bool false
  | .Int8 => .Int8 0
  | .Int16 => .Int16 0
  | .Int32 => .Int32 0
  | .Int64 => .Int64 0
  | .UInt8 => .UInt8 0
  | .UInt16 => .UInt16 0
  | .UInt32 => .UInt32 0
  | .UInt64 => .UInt64 0
  | .Float16 => .Float16 (mkFinite 0 0)
  | .Float32 => .Float32 (mkFinite 0 0)
  | .Float64 => .Float64 (mkFinite 0 0)
  | .Complex64 => .Complex64 (mkFinite 0 0) (mkFinite 0 0)
  | .Complex128 => .Complex128 (mkFinite 0 0) (mkFinite 0 0)
  | .String => .String ""
  | .Bytes => .Bytes []

/-- Rust `FillValue::to_zarr_value`: a `Value` scalar whose tag agrees with the
dtype is used as-is; every other case (including the NaN and infinity
sentinels) falls back to `default_scalar`. -/
def FillValue.to_zarr_value (fv : FillValue) (dtype : DataType) : ZarrValue :=
  match fv with
  | .Value v => if v.data_type = dtype then v else default_scalar dtype
  | _ => default_scalar dtype

-- ---------------------------------------------------------------------------
-- ZarrError  (src/error.rs)
-- ---------------------------------------------------------------------------

inductive ZarrError where
  | Io (msg : String)
  | Json (msg : String)
  | Metadata (msg : String)
  | Decode (msg : String)
  | Encode (msg : String)
  | TypeConversion (msg : String)
  | Storage (msg : String)
  | Codec (msg : String)
  | NotFound (msg : String)
  | Other (msg : String)
deriving DecidableEq

/-- True when the error is the `Decode` kind. -/
def ZarrError.isDecode : ZarrError → Bool
  | .Decode _ => true
  | _ => false

-- ---------------------------------------------------------------------------
-- ZarrVectorValue  (typed chunk data)
-- ---------------------------------------------------------------------------

inductive ZarrVectorValue where
  | VBool (v : List Bool)
  | VInt8 (v : List Int)
  | VInt16 (v : List Int)
  | VInt32 (v : List Int)
  | VInt64 (v : List Int)
  | VUInt8 (v : List Nat)
  | VUInt16 (v : List Nat)
  | VUInt32 (v : List Nat)
  | VUInt64 (v : List Nat)
  | VFloat16 (v : List Fl)
  | VFloat32 (v : List Fl)
  | VFloat64 (v : List Fl)
  | VComplex64 (v : List (Fl × Fl))
  | VComplex128 (v : List (Fl × Fl))
  | VString (v : List String)
  | VBytes (v : List (List Nat))
  | VWithNulls (dt : DataType) (v : List (Option ZarrValue))
deriving DecidableEq

/-- Rust `ZarrVectorValue::len`. -/
def ZarrVectorValue.len : ZarrVectorValue → Nat
  | .VBool v => v.length
  | .VInt8 v => v.length
  | .VInt16 v => v.length
  | .VInt32 v => v.length
  | .VInt64 v => v.length
  | .VUInt8 v => v.length
  | .VUInt16 v => v.length
  | .VUInt32 v => v.length
  | .VUInt64 v => v.length
  | .VFloat16 v => v.length
  | .VFloat32 v => v.length
  | .VFloat64 v => v.length
  | .VComplex64 v => v.length
  | .VComplex128 v => v.length
  | .VString v => v.length
  | .VBytes v => v.length
  | .VWithNulls _ v => v.length

/-- Rust `ZarrVectorValue::to_f64_vec`: lossy conversion of the whole vector,
failing with a `TypeConversion` error for String / Bytes vectors. -/
def ZarrVectorValue.to_f64_vec : ZarrVectorValue → Except ZarrError (List Fl)
  | .VBool v => .ok (v.map (fun b => if b then mkFinite 1 0 else mkFinite 0 0))
  | .VInt8 v => .ok (v.map (fun x => mkFinite x 0))
  | .VInt16 v => .ok (v.map (fun x => mkFinite x 0))
  | .VInt32 v => .ok (v.map (fun x => mkFinite x 0))
  | .VInt64 v => .ok (v.map (fun x => mkFinite x 0))
  | .VUInt8 v => .ok (v.map (fun x => mkFinite x 0))
  | .VUInt16 v => .ok (v.map (fun x => mkFinite x 0))
  | .VUInt32 v => .ok (v.map (fun x => mkFinite x 0))
  | .VUInt64 v => .ok (v.map (fun x => mkFinite x 0))
  | .VFloat16 v => .ok v
  | .VFloat32 v => .ok v
  | .VFloat64 v => .ok v
  | .VComplex64 v => .ok (v.map Prod.fst)
  | .VComplex128 v => .ok (v.map Prod.fst)
  | .VString _ => .error (ZarrError.TypeConversion "Cannot convert String to f64")
  | .VBytes _ => .error (ZarrError.TypeConversion "Cannot convert Bytes to f64")
  | .VWithNulls _ v =>
      .ok (v.map (fun opt => ((opt.bind ZarrValue.to_f64).getD Fl.nan)))

-- ---------------------------------------------------------------------------
-- Raw bytes -> typed vector  (bytes_to_zarr_vector, src/types.rs)
-- ---------------------------------------------------------------------------

/-- Read the unsigned value of a byte group in the effective byte order:
`Little` and `NotApplicable` read little-endian, `Big` reads big-endian
(mirrors every endian match in `bytes_to_zarr_vector`). -/
def natOfBytes (endian : Endian) (bs : List Nat) : Nat :=
  match endian with
  | .Big => beNat bs
  | _ => leNat bs

/-- Read consecutive `size`-byte groups from `data`, one per element; the
count is the floor of the length over `size`, so a trailing partial element
is dropped (mirrors the cursor loops of `read_vec_typed` and the inline
f16 / complex loops). -/
def readElems (size : Nat) (conv : List Nat → α) (data : List Nat) : List α :=
  (List.range (data.length / size)).map (fun i => conv ((data.drop (i * size)).take size))

/-- Rust `bytes_to_zarr_vector`: interpret raw bytes as a typed vector according
to endian and dtype; `String` / `Bytes` dtypes fail with a `Decode` error. -/
def bytes_to_zarr_vector (endian : Endian) (dtype : DataType) (data : List Nat) :
    Except ZarrError ZarrVectorValue :=
  match dtype with
  | .Bool => .ok (.VBool (data.map (fun b => b ≠ 0)))
  | .Int8 => .ok (.VInt8 (data.map (fun b => toSigned 8 b)))
  | .UInt8 => .ok (.VUInt8 data)
  | .Int16 => .ok (.VInt16 (readElems 2 (fun bs => toSigned 16 (natOfBytes endian bs)) data))
  | .Int32 => .ok (.VInt32 (readElems 4 (fun bs => toSigned 32 (natOfBytes endian bs)) data))
  | .Int64 => .ok (.VInt64 (readElems 8 (fun bs => toSigned 64 (natOfBytes endian bs)) data))
  | .UInt16 => .ok (.VUInt16 (readElems 2 (natOfBytes endian) data))
  | .UInt32 => .ok (.VUInt32 (readElems 4 (natOfBytes endian) data))
  | .UInt64 => .ok (.VUInt64 (readElems 8 (natOfBytes endian) data))
  | .Float16 => .ok (.VFloat16 (readElems 2 (fun bs => f16FromBits (natOfBytes endian bs)) data))
  | .Float32 => .ok (.VFloat32 (readElems 4 (fun bs => f32FromBits (natOfBytes endian bs)) data))
  | .Float64 => .ok (.VFloat64 (readElems 8 (fun bs => f64FromBits (natOfBytes endian bs)) data))
  | .Complex64 =>
      .ok (.VComplex64 (readElems 8 (fun bs =>
        (f32FromBits (natOfBytes endian (bs.take 4)),
         f32FromBits (natOfBytes endian ((bs.drop 4).take 4)))) data))
  | .Complex128 =>
      .ok (.VComplex128 (readElems 16 (fun bs =>
        (f64FromBits (natOfBytes endian (bs.take 8)),
         f64FromBits (natOfBytes endian ((bs.drop 8).take 8)))) data))
  | .String =>
      .error (ZarrError.Decode "Cannot interpret raw bytes as String/Bytes vector without length info")
  | .Bytes =>
      .error (ZarrError.Decode "Cannot interpret raw bytes as String/Bytes vector without length info")

/-- Rust `fill_chunk`: replicate a scalar into a dense vector of length
`product(chunk_shape)`. -/
def fill_chunk (value : ZarrValue) (chunk_shape : List Nat) : ZarrVectorValue :=
  let total := chunk_shape.prod
  match value with
  | .Bool b => .VBool (List.replicate total b)
  | .Int8 v => .VInt8 (List.replicate total v)
  | .Int16 v => .VInt16 (List.replicate total v)
  | .Int32 v => .VInt32 (List.replicate total v)
  | .Int64 v => .VInt64 (List.replicate total v)
  | .UInt8 v => .VUInt8 (List.replicate total v)
  | .UInt16 v => .VUInt16 (List.replicate total v)
  | .UInt32 v => .VUInt32 (List.replicate total v)
  | .UInt64 v => .VUInt64 (List.replicate total v)
  | .Float16 v => .VFloat16 (List.replicate total v)
  | .Float32 v => .VFloat32 (List.replicate total v)
  | .Float64 v => .VFloat64 (List.replicate total v)
  | .Complex64 re im => .VComplex64 (List.replicate total (re, im))
  | .Complex128 re im => .VComplex128 (List.replicate total (re, im))
  | .String s => .VString (List.replicate total s)
  | .Bytes bs => .VBytes (List.replicate total bs)
  | .Null dt => .VWithNulls dt (List.replicate total none)

-- ---------------------------------------------------------------------------
-- JSON values (model of serde_json::Value)
-- ---------------------------------------------------------------------------

/-- Model of `serde_json::Value`.  Numbers are split into integers and
floats, matching serde's distinction that drives `as_i64` / `as_u64`. -/
inductive Json where
  | null
  | bool (b : Bool)
  | intNum (n : Int)
  | floatNum (x : Fl)
  | str (s : String)
  | arr (xs : List Json)
  | obj (fields : List (String × Json))

/-- Rust `Value::as_i64`: integers representable in a signed 64-bit word. -/
def Json.asI64 : Json → Option Int
  | .intNum n => if -(2 ^ 63) ≤ n ∧ n < 2 ^ 63 then some n else none
  | _ => none

/-- Rust `Value::as_u64`. -/
def Json.asU64 : Json → Option Nat
  | .intNum n => if 0 ≤ n ∧ n < 2 ^ 64 then some n.toNat else none
  | _ => none

/-- Rust `Value::as_str`. -/
def Json.asStr : Json → Option String
  | .str s => some s
  | _ => none

/-- Rust `Value::as_object` (as the field list). -/
def Json.asObj : Json → Option (List (String × Json))
  | .obj fields => some fields
  | _ => none

/-- Rust `Map::get` on a JSON object's fields (first binding wins). -/
def jsonGet (fields : List (String × Json)) (key : String) : Option Json :=
  (fields.find? (fun kv => kv.1 = key)).map Prod.snd

-- ---------------------------------------------------------------------------
-- External compression libraries, abstracted
-- ---------------------------------------------------------------------------

/-- Abstraction of the external compression crates used by the codecs
(flate2 gzip / zlib, zstd, lz4_flex, blosc FFI) plus the IEEE
multiply-add-round-to-f32 step of FixedScaleOffset.  These are external
collaborators, not code of this repository; theorems about round-trips
take their documented contracts as hypotheses. -/
structure ExtLib where
  gzipDecompress : List Nat → Except String (List Nat)
  gzipCompress : Nat → List Nat → Except String (List Nat)
  zlibDecompress : List Nat → Except String (List Nat)
  zlibCompress : Nat → List Nat → Except String (List Nat)
  zstdDecompress : List Nat → Except String (List Nat)
  zstdCompress : Int → List Nat → Except String (List Nat)
  lz4BlockCompress : List Nat → List Nat
  lz4BlockDecompress : List Nat → Nat → Except String (List Nat)
  bloscDecompress : List Nat → Except String (List Nat)
  bloscCompress : Int → Option Nat → List Nat → Except String (List Nat)
  fsoConvert : Int → Fl → Fl → List Nat
  f64ToF32Round : Fl → Fl
  f16FromF64 : Fl → Fl

-- ---------------------------------------------------------------------------
-- Codec structs  (src/codecs/*.rs)
-- ---------------------------------------------------------------------------

structure BytesCodec where
  endian : Option Endian
deriving DecidableEq

structure GzipCodec where
  level : Nat
deriving DecidableEq

structure ZlibCodec where
  level : Nat
deriving DecidableEq

structure ZstdCodec where
  level : Int
deriving DecidableEq

structure Lz4Codec where
  acceleration : Int
deriving DecidableEq

inductive BloscCname where
  | Lz4
  | Lz4hc
  | Blosclz
  | Zstd
  | Snappy
  | Zlib
deriving DecidableEq

inductive BloscShuffle where
  | NoShuffle
  | Shuffle
  | BitShuffle
deriving DecidableEq

structure BloscCodec where
  typesize : Option Nat
  cname : BloscCname
  clevel : Int
  shuffle : Option BloscShuffle
  blocksize : Nat
deriving DecidableEq

structure ShardingCodec where
  chunk_shape : List Nat
  codecs : List Json

structure FixedScaleOffsetCodec where
  scale : Fl
  offset : Fl
  dtype : String
  astype : String
deriving DecidableEq

/-- Rust `BytesCodec::decode`: identity on the bytes. -/
def BytesCodec.decode (_c : BytesCodec) (data : List Nat) : Except ZarrError (List Nat) :=
  .ok data

/-- Rust `BytesCodec::encode`: identity on the bytes. -/
def BytesCodec.encode (_c : BytesCodec) (data : List Nat) : Except ZarrError (List Nat) :=
  .ok data

/-- Rust `GzipCodec::decode` via the flate2 gzip stream decoder. -/
def GzipCodec.decode (lib : ExtLib) (_c : GzipCodec) (data : List Nat) :
    Except ZarrError (List Nat) :=
  (lib.gzipDecompress data).mapError (fun e => ZarrError.Decode ("Gzip decompress failed: " ++ e))

/-- Rust `GzipCodec::encode`, with the level clamped to at most 9. -/
def GzipCodec.encode (lib : ExtLib) (c : GzipCodec) (data : List Nat) :
    Except ZarrError (List Nat) :=
  (lib.gzipCompress (min c.level 9) data).mapError
    (fun e => ZarrError.Encode ("Gzip compress failed: " ++ e))

/-- Rust `ZlibCodec::decode` via the flate2 zlib stream decoder. -/
def ZlibCodec.decode (lib : ExtLib) (_c : ZlibCodec) (data : List Nat) :
    Except ZarrError (List Nat) :=
  (lib.zlibDecompress data).mapError (fun e => ZarrError.Decode ("Zlib decompress failed: " ++ e))

/-- Rust `ZlibCodec::encode`, with the level clamped to at most 9. -/
def ZlibCodec.encode (lib : ExtLib) (c : ZlibCodec) (data : List Nat) :
    Except ZarrError (List Nat) :=
  (lib.zlibCompress (min c.level 9) data).mapError
    (fun e => ZarrError.Encode ("Zlib compress failed: " ++ e))

/-- Rust `ZstdCodec::decode` via the zstd streaming decoder. -/
def ZstdCodec.decode (lib : ExtLib) (_c : ZstdCodec) (data : List Nat) :
    Except ZarrError (List Nat) :=
  (lib.zstdDecompress data).mapError (fun e => ZarrError.Decode ("Zstd decompress failed: " ++ e))

/-- Rust `ZstdCodec::encode` via `zstd::bulk::compress`. -/
def ZstdCodec.encode (lib : ExtLib) (c : ZstdCodec) (data : List Nat) :
    Except ZarrError (List Nat) :=
  (lib.zstdCompress c.level data).mapError
    (fun e => ZarrError.Encode ("Zstd compress failed: " ++ e))

/-- Rust `Lz4Codec::decode`: strip the 4-byte little-endian uncompressed-length
prefix, decompress the remaining LZ4 block, and require the decompressed
length to equal the prefix value exactly. -/
def Lz4Codec.decode (lib : ExtLib) (_c : Lz4Codec) (data : List Nat) :
    Except ZarrError (List Nat) :=
  if data.length < 4 then
    .error (ZarrError.Decode "LZ4 decode: compressed buffer missing 4-byte size prefix")
  else
    let destSize := leNat (data.take 4)
    let payload := data.drop 4
    match lib.lz4BlockDecompress payload destSize with
    | .error e => .error (ZarrError.Decode ("LZ4 decompress failed: " ++ e))
    | .ok decompressed =>
        if decompressed.length ≠ destSize then
          .error (ZarrError.Decode "LZ4 decompression error: length mismatch")
        else .ok decompressed

/-- Rust `Lz4Codec::encode`: prepend the 4-byte little-endian length of the
input (truncated to 32 bits, as `data.len() as u32`) to the LZ4 block. -/
def Lz4Codec.encode (lib : ExtLib) (_c : Lz4Codec) (data : List Nat) :
    Except ZarrError (List Nat) :=
  .ok (u32LeBytes data.length ++ lib.lz4BlockCompress data)

/-- Rust `BloscCodec::decode` via the blosc FFI (validate then decompress). -/
def BloscCodec.decode (lib : ExtLib) (_c : BloscCodec) (data : List Nat) :
    Except ZarrError (List Nat) :=
  (lib.bloscDecompress data).mapError ZarrError.Decode

/-- Rust `BloscCodec::encode` via the blosc FFI. -/
def BloscCodec.encode (lib : ExtLib) (c : BloscCodec) (data : List Nat) :
    Except ZarrError (List Nat) :=
  (lib.bloscCompress c.clevel c.typesize data).mapError ZarrError.Encode

/-- Per-element loop shared by the FixedScaleOffset integer decoders: read
little-endian elements, apply the scale / offset in f64 and write the
result as little-endian f32 (the float arithmetic and rounding live in
`ExtLib.fsoConvert`). -/
def fsoDecodeElems (lib : ExtLib) (c : FixedScaleOffsetCodec) (elemBytes : Nat)
    (toVal : Nat → Int) (data : List Nat) : List Nat :=
  (readElems elemBytes (fun bs => lib.fsoConvert (toVal (leNat bs)) c.scale c.offset) data).flatten

/-- Rust `FixedScaleOffsetCodec::decode`: only the four int/uint 16/32 to
float32 combinations are supported; anything else fails with `Decode`. -/
def FixedScaleOffsetCodec.decode (lib : ExtLib) (c : FixedScaleOffsetCodec)
    (data : List Nat) : Except ZarrError (List Nat) :=
  match c.astype, c.dtype with
  | "int16", "float32" => .ok (fsoDecodeElems lib c 2 (toSigned 16) data)
  | "int32", "float32" => .ok (fsoDecodeElems lib c 4 (toSigned 32) data)
  | "uint16", "float32" => .ok (fsoDecodeElems lib c 2 (fun n => (n : Int)) data)
  | "uint32", "float32" => .ok (fsoDecodeElems lib c 4 (fun n => (n : Int)) data)
  | _, _ => .error (ZarrError.Decode "Unsupported FixedScaleOffset conversion")

/-- Rust `FixedScaleOffsetCodec::encode` is not implemented. -/
def FixedScaleOffsetCodec.encode (_lib : ExtLib) (_c : FixedScaleOffsetCodec)
    (_data : List Nat) : Except ZarrError (List Nat) :=
  .error (ZarrError.Encode "FixedScaleOffsetCodec encoding not implemented")

-- ---------------------------------------------------------------------------
-- AnyCodec and the decode pipeline  (src/codecs/mod.rs)
-- ---------------------------------------------------------------------------

inductive AnyCodec where
  | Bytes (c : BytesCodec)
  | Gzip (c : GzipCodec)
  | Blosc (c : BloscCodec)
  | Zlib (c : ZlibCodec)
  | Zstd (c : ZstdCodec)
  | Lz4 (c : Lz4Codec)
  | Sharding (c : ShardingCodec)
  | FixedScaleOffset (c : FixedScaleOffsetCodec)

/-- Rust `AnyCodec::decode`: enum dispatch; the sharding placeholder always
fails with a `Codec` error. -/
def AnyCodec.decode (lib : ExtLib) : AnyCodec → List Nat → Except ZarrError (List Nat)
  | .Bytes c, data => c.decode data
  | .Gzip c, data => GzipCodec.decode lib c data
  | .Blosc c, data => BloscCodec.decode lib c data
  | .Zlib c, data => ZlibCodec.decode lib c data
  | .Zstd c, data => ZstdCodec.decode lib c data
  | .Lz4 c, data => Lz4Codec.decode lib c data
  | .Sharding _, _ => .error (ZarrError.Codec "Sharding codec decoding requires additional context")
  | .FixedScaleOffset c, data => FixedScaleOffsetCodec.decode lib c data

/-- Rust `AnyCodec::encode`. -/
def AnyCodec.encode (lib : ExtLib) : AnyCodec → List Nat → Except ZarrError (List Nat)
  | .Bytes c, data => c.encode data
  | .Gzip c, data => GzipCodec.encode lib c data
  | .Blosc c, data => BloscCodec.encode lib c data
  | .Zlib c, data => ZlibCodec.encode lib c data
  | .Zstd c, data => ZstdCodec.encode lib c data
  | .Lz4 c, data => Lz4Codec.encode lib c data
  | .Sharding _, _ => .error (ZarrError.Codec "Sharding codec encoding requires additional context")
  | .FixedScaleOffset c, data => FixedScaleOffsetCodec.encode lib c data

/-- Rust `AnyCodec::bytes_endian`: the endian tag of a `Bytes` codec. -/
def AnyCodec.bytes_endian : AnyCodec → Option Endian
  | .Bytes c => c.endian
  | _ => none

/-- The decode loop of `apply_codec_pipeline`: decode with each codec in
list order, stopping at the first error. -/
def decodeSeq (lib : ExtLib) : List AnyCodec → List Nat → Except ZarrError (List Nat)
  | [], buf => .ok buf
  | c :: rest, buf =>
      match AnyCodec.decode lib c buf with
      | .error e => .error e
      | .ok buf2 => decodeSeq lib rest buf2

/-- Rust `apply_codec_pipeline`: iterate the codec list from the end to the
start, decoding with each codec in turn. -/
def apply_codec_pipeline (lib : ExtLib) (codecs : List AnyCodec) (data : List Nat) :
    Except ZarrError (List Nat) :=
  decodeSeq lib codecs.reverse data

-- ---------------------------------------------------------------------------
-- Index math  (src/array.rs)
-- ---------------------------------------------------------------------------

/-- The `scan` of the strides computation: collect the running product,
starting from `acc`, one entry per dimension. -/
def scanProd : List Nat → Nat → List Nat
  | [], _ => []
  | d :: rest, acc => acc :: scanProd rest (acc * d)

/-- Rust `strides`: row-major (C) strides scan the reversed shape and reverse
the result; column-major (F) strides scan the shape directly. -/
def strides (shape : List Nat) (order : ArrayOrder) : List Nat :=
  match order with
  | .C => (scanProd shape.reverse 1).reverse
  | .F => scanProd shape 1

/-- Rust `linear_index`: dot product of the indices with the strides. -/
def linear_index (shape : List Nat) (order : ArrayOrder) (indices : List Nat) : Nat :=
  (List.zipWith (fun i s => i * s) indices (strides shape order)).sum

/-- Rust `cartesian_indices`: all multi-indices of a shape in lexicographic
(row-major) order. -/
def cartesian_indices : List Nat → List (List Nat)
  | [] => [[]]
  | d :: rest =>
      let tails := cartesian_indices rest
      (List.range d).flatMap (fun i => tails.map (fun r => i :: r))

/-- Decimal parse of a key segment (`str::parse::<usize>` on digit input). -/
def parseUsize (s : List Char) : Option Nat :=
  if s ≠ [] ∧ s.all Char.isDigit then
    some (s.foldl (fun acc c => acc * 10 + (c.toNat - 48)) 0)
  else none

/-- Rust `str::split` on a separator character, over the character list
(structurally recursive so concrete inputs evaluate). -/
def splitOnChar (sep : Char) : List Char → List (List Char)
  | [] => [[]]
  | c :: rest =>
      match splitOnChar sep rest with
      | [] => [[]]
      | h :: t => if c = sep then [] :: h :: t else (c :: h) :: t

/-- Rust `parse_key_string`: split on the dot separator when one is present,
else on the slash, parsing each part and silently skipping non-numeric
parts. -/
def parse_key_string (key : String) : List Nat :=
  let cs := key.data
  let sep := if cs.contains '.' then '.' else '/'
  (splitOnChar sep cs).filterMap parseUsize

-- ---------------------------------------------------------------------------
-- Chunk parsing  (src/array.rs parse_chunk)
-- ---------------------------------------------------------------------------

/-- Rust `parse_chunk`: a present non-empty blob runs through the codec
pipeline and is then interpreted with the endian of the first `Bytes`
codec found (little-endian when there is none); a missing or empty blob
becomes a chunk filled from the fill value. -/
def parse_chunk (lib : ExtLib) (data : Option (List Nat)) (dtype : DataType)
    (chunk_shape : List Nat) (fill_value : FillValue) (codecs : List AnyCodec) :
    Except ZarrError ZarrVectorValue :=
  match data with
  | some raw =>
      if raw.isEmpty then
        .ok (fill_chunk (fill_value.to_zarr_value dtype) chunk_shape)
      else
        match apply_codec_pipeline lib codecs raw with
        | .error e => .error e
        | .ok decompressed =>
            let endian := (codecs.findSome? AnyCodec.bytes_endian).getD Endian.Little
            bytes_to_zarr_vector endian dtype decompressed
  | none => .ok (fill_chunk (fill_value.to_zarr_value dtype) chunk_shape)

-- ---------------------------------------------------------------------------
-- Fill-value parsing  (src/metadata/mod.rs)
-- ---------------------------------------------------------------------------

/-- Rust `Value::as_f64` (integers convert; the claims never exercise an
integer beyond exact f64 range). -/
def Json.asF64 : Json → Option Fl
  | .intNum n => some (mkFinite n 0)
  | .floatNum x => some x
  | _ => none

/-- True for the float and complex dtypes (the dtypes for which the
NaN / Infinity fill sentinels are accepted). -/
def isFloatOrComplex : DataType → Bool
  | .Float16 | .Float32 | .Float64 | .Complex64 | .Complex128 => true
  | _ => false

/-- Rust `parse_numeric_fill`: dtype-aware interpretation of a JSON number,
range-checking integer widths; float widths cast from f64 (rounding casts
live in `ExtLib`); for complex the number becomes the real part; for Bool
nonzero is true; String / Bytes reject numbers. -/
def parse_numeric_fill (lib : ExtLib) (dtype : DataType) (n : Json) :
    Except String FillValue :=
  match dtype with
  | .Int8 =>
      match n.asI64 with
      | none => .error "Expected int for Int8"
      | some i =>
          if -(2 ^ 7) ≤ i ∧ i < 2 ^ 7 then .ok (.Value (.Int8 i))
          else .error "Value out of range for Int8"
  | .Int16 =>
      match n.asI64 with
      | none => .error "Expected int for Int16"
      | some i =>
          if -(2 ^ 15) ≤ i ∧ i < 2 ^ 15 then .ok (.Value (.Int16 i))
          else .error "Value out of range for Int16"
  | .Int32 =>
      match n.asI64 with
      | none => .error "Expected int for Int32"
      | some i =>
          if -(2 ^ 31) ≤ i ∧ i < 2 ^ 31 then .ok (.Value (.Int32 i))
          else .error "Value out of range for Int32"
  | .Int64 =>
      match n.asI64 with
      | none => .error "Expected int for Int64"
      | some i => .ok (.Value (.Int64 i))
  | .UInt8 =>
      match n.asU64 with
      | none => .error "Expected uint for UInt8"
      | some u =>
          if u < 2 ^ 8 then .ok (.Value (.UInt8 u)) else .error "Value out of range for UInt8"
  | .UInt16 =>
      match n.asU64 with
      | none => .error "Expected uint for UInt16"
      | some u =>
          if u < 2 ^ 16 then .ok (.Value (.UInt16 u)) else .error "Value out of range for UInt16"
  | .UInt32 =>
      match n.asU64 with
      | none => .error "Expected uint for UInt32"
      | some u =>
          if u < 2 ^ 32 then .ok (.Value (.UInt32 u)) else .error "Value out of range for UInt32"
  | .UInt64 =>
      match n.asU64 with
      | none => .error "Expected uint for UInt64"
      | some u => .ok (.Value (.UInt64 u))
  | .Float16 =>
      match n.asF64 with
      | none => .error "Expected float for Float16"
      | some f => .ok (.Value (.Float16 (lib.f16FromF64 f)))
  | .Float32 =>
      match n.asF64 with
      | none => .error "Expected float for Float32"
      | some f => .ok (.Value (.Float32 (lib.f64ToF32Round f)))
  | .Float64 =>
      match n.asF64 with
      | none => .error "Expected float for Float64"
      | some f => .ok (.Value (.Float64 f))
  | .Complex64 =>
      match n.asF64 with
      | none => .error "Expected float for Complex64"
      | some f => .ok (.Value (.Complex64 (lib.f64ToF32Round f) (mkFinite 0 0)))
  | .Complex128 =>
      match n.asF64 with
      | none => .error "Expected float for Complex128"
      | some f => .ok (.Value (.Complex128 f (mkFinite 0 0)))
  | .Bool =>
      match n.asI64 with
      | none => .error "Expected int for Bool"
      | some i => .ok (.Value (.Bool (i ≠ 0)))
  | .String => .error "Expected string, got number"
  | .Bytes => .error "Expected string, got number"

/-- The UTF-8 bytes of a string (`str::as_bytes`). -/
def utf8Bytes (s : String) : List Nat := s.toUTF8.toList.map UInt8.toNat

/-- Rust `parse_fill_value`: JSON null maps to the NaN sentinel regardless of
dtype; the NaN / Infinity token strings are only accepted for float or
complex dtypes; other strings are accepted only for String / Bytes;
booleans only for Bool; numbers via `parse_numeric_fill`. -/
def parse_fill_value (lib : ExtLib) (dtype : DataType) (value : Json) :
    Except String FillValue :=
  match value with
  | .null => .ok FillValue.NaN
  | .str s =>
      if s = "NaN" then
        if isFloatOrComplex dtype then .ok FillValue.NaN else .error "NaN not valid for dtype"
      else if s = "Infinity" then
        if isFloatOrComplex dtype then .ok FillValue.Infinity
        else .error "Infinity not valid for dtype"
      else if s = "-Infinity" then
        if isFloatOrComplex dtype then .ok FillValue.NegativeInfinity
        else .error "-Infinity not valid for dtype"
      else
        match dtype with
        | .String => .ok (.Value (.String s))
        | .Bytes => .ok (.Value (.Bytes (utf8Bytes s)))
        | _ => .error "Expected dtype value, got string"
  | .bool b =>
      match dtype with
      | .Bool => .ok (.Value (.Bool b))
      | _ => .error "Expected dtype, got bool"
  | .intNum _ => parse_numeric_fill lib dtype value
  | .floatNum _ => parse_numeric_fill lib dtype value
  | _ => .error "Unexpected fill_value JSON"

-- ---------------------------------------------------------------------------
-- NumPy dtype format parsing  (src/metadata/v2.rs)
-- ---------------------------------------------------------------------------

structure V2DataType where
  data_type : DataType
  byte_order : Endian
  time_unit : Option String
deriving DecidableEq

structure NumPyFormat where
  byte_order : Char
  type_code : Char
  byte_size : Nat
  time_unit : Option String
deriving DecidableEq

/-- Rust `parse_with_time_unit`: split an optional bracketed time unit off the
byte-size digits. -/
def parse_with_time_unit (s : List Char) : Except String (Nat × Option String) :=
  match s.findIdx? (fun c => c = '[') with
  | some bracketPos =>
      let sizeStr := s.take bracketPos
      let rest := s.drop (bracketPos + 1)
      match rest.findIdx? (fun c => c = ']') with
      | none => .error "Missing closing bracket in datetime format"
      | some e =>
          let unit := String.mk (rest.take e)
          match parseUsize sizeStr with
          | none => .error "Invalid byte size in datetime format"
          | some byteSize =>
              if byteSize = 0 then .error "Byte size must be greater than 0"
              else .ok (byteSize, some unit)
  | none =>
      match parseUsize s with
      | none => .error "Invalid byte size"
      | some byteSize =>
          if byteSize = 0 then .error "Byte size must be greater than 0"
          else .ok (byteSize, none)

/-- Rust `parse_numpy_format`: 3+ characters, a byte-order character, a type
code, then the byte size (with an optional time unit for M / m). -/
def parse_numpy_format (s : String) : Except String NumPyFormat :=
  match s.toList with
  | bo :: tc :: rest =>
      if rest.length = 0 then .error "NumPy format string too short"
      else if ¬ (bo = '<' ∨ bo = '>' ∨ bo = '|') then .error "Invalid byte order"
      else if ¬ (tc = 'b' ∨ tc = 'i' ∨ tc = 'u' ∨ tc = 'f' ∨ tc = 'c' ∨ tc = 'M'
                 ∨ tc = 'm' ∨ tc = 'S' ∨ tc = 'U' ∨ tc = 'V') then
        .error "Invalid type code"
      else if tc = 'M' ∨ tc = 'm' then
        (parse_with_time_unit rest).map (fun p =>
          { byte_order := bo, type_code := tc, byte_size := p.1, time_unit := p.2 })
      else
        match parseUsize rest with
        | none => .error "Invalid byte size"
        | some byteSize =>
            if byteSize = 0 then .error "Byte size must be greater than 0"
            else .ok { byte_order := bo, type_code := tc, byte_size := byteSize, time_unit := none }
  | _ => .error "NumPy format string too short"

/-- Rust `parse_byte_order`. -/
def parse_byte_order (c : Char) : Except String Endian :=
  if c = '<' then .ok Endian.Little
  else if c = '>' then .ok Endian.Big
  else if c = '|' then .ok Endian.NotApplicable
  else .error "Invalid byte order"

/-- The core `(type_code, byte_size)` match of `numpy_format_to_dtype`:
datetime / timedelta codes map to Int64 for any size; unsupported pairs
fail. -/
def numpy_core (tc : Char) (n : Nat) : Except String DataType :=
  if tc = 'b' ∧ n = 1 then .ok .Bool
  else if tc = 'i' ∧ n = 1 then .ok .Int8
  else if tc = 'i' ∧ n = 2 then .ok .Int16
  else if tc = 'i' ∧ n = 4 then .ok .Int32
  else if tc = 'i' ∧ n = 8 then .ok .Int64
  else if tc = 'u' ∧ n = 1 then .ok .UInt8
  else if tc = 'u' ∧ n = 2 then .ok .UInt16
  else if tc = 'u' ∧ n = 4 then .ok .UInt32
  else if tc = 'u' ∧ n = 8 then .ok .UInt64
  else if tc = 'f' ∧ n = 2 then .ok .Float16
  else if tc = 'f' ∧ n = 4 then .ok .Float32
  else if tc = 'f' ∧ n = 8 then .ok .Float64
  else if tc = 'c' ∧ n = 8 then .ok .Complex64
  else if tc = 'c' ∧ n = 16 then .ok .Complex128
  else if tc = 'S' then .ok .String
  else if tc = 'U' then .ok .String
  else if tc = 'V' then .ok .Bytes
  else if tc = 'M' then .ok .Int64
  else if tc = 'm' then .ok .Int64
  else .error "Unsupported NumPy type"

/-- Rust `numpy_format_to_dtype`: the (type_code, byte_size) table, then the
byte-order character. -/
def numpy_format_to_dtype (fmt : NumPyFormat) : Except String V2DataType :=
  match numpy_core fmt.type_code fmt.byte_size with
  | .error e => .error e
  | .ok dt =>
      match parse_byte_order fmt.byte_order with
      | .error e => .error e
      | .ok bo => .ok { data_type := dt, byte_order := bo, time_unit := fmt.time_unit }

/-- Rust `parse_numpy_dtype`: format parse followed by the dtype table. -/
def parse_numpy_dtype (s : String) : Except String V2DataType :=
  match parse_numpy_format s with
  | .error e => .error e
  | .ok fmt => numpy_format_to_dtype fmt

-- ---------------------------------------------------------------------------
-- V2 compressor and metadata  (src/metadata/v2.rs, src/v2.rs)
-- ---------------------------------------------------------------------------

structure ZarrCompressor where
  id : String
  config : List (String × Json)

/-- Rust `str::parse::<i64>` on a decimal string with an optional sign. -/
def parseI64 (s : List Char) : Option Int :=
  match s with
  | '-' :: rest => (parseUsize rest).map (fun n => -(n : Int))
  | _ => (parseUsize s).map (fun n => (n : Int))

/-- Rust `get_config_int`: a config entry read as an i64, falling back to
parsing a string value. -/
def get_config_int (config : List (String × Json)) (key : String) : Option Int :=
  (jsonGet config key).bind (fun v =>
    match v.asI64 with
    | some n => some n
    | none => (v.asStr).bind (fun s => parseI64 s.toList))

/-- Rust `str::to_lowercase`, character-wise (the compressor and shuffle ids
are ASCII). -/
def strToLower (s : String) : String := String.mk (s.data.map Char.toLower)

/-- Rust `parse_blosc_cname` (case-insensitive). -/
def parse_blosc_cname (s : String) : Option BloscCname :=
  let l := strToLower s
  if l = "lz4" then some .Lz4
  else if l = "lz4hc" then some .Lz4hc
  else if l = "blosclz" then some .Blosclz
  else if l = "zstd" then some .Zstd
  else if l = "snappy" then some .Snappy
  else if l = "zlib" then some .Zlib
  else none

/-- Rust `i64 as u32`: wrap modulo 2^32. -/
def asU32 (i : Int) : Nat := (i % (2 ^ 32 : Int)).toNat

/-- Rust `i64 as i32`: wrap modulo 2^32 into the signed range. -/
def asI32 (i : Int) : Int := toSigned 32 (i % (2 ^ 32 : Int)).toNat

/-- Rust `i32::clamp(lo, hi)`. -/
def intClamp (lo hi x : Int) : Int := min hi (max lo x)

/-- Rust `blosc_codec_from_config`: cname from config, else the fallback, else
zstd; clevel from clevel or level, default 5, clamped to 0..9; shuffle
accepts the int codes 0 / 1 / 2 or the named strings (or digit strings). -/
def blosc_codec_from_config (comp : ZarrCompressor) (fallbackCname : Option BloscCname) :
    BloscCodec :=
  let cname :=
    ((((jsonGet comp.config "cname").bind Json.asStr).bind parse_blosc_cname).orElse
      (fun _ => fallbackCname)).getD BloscCname.Zstd
  let clevel := asI32 (((get_config_int comp.config "clevel").orElse
      (fun _ => get_config_int comp.config "level")).getD 5)
  let shuffle := (jsonGet comp.config "shuffle").bind (fun v =>
    match v with
    | .intNum n =>
        if n = 0 then some BloscShuffle.NoShuffle
        else if n = 1 then some BloscShuffle.Shuffle
        else if n = 2 then some BloscShuffle.BitShuffle
        else none
    | .str s =>
        let l := strToLower s
        if l = "noshuffle" ∨ l = "0" then some BloscShuffle.NoShuffle
        else if l = "shuffle" ∨ l = "1" then some BloscShuffle.Shuffle
        else if l = "bitshuffle" ∨ l = "2" then some BloscShuffle.BitShuffle
        else none
    | _ => none)
  let blocksize := ((get_config_int comp.config "blocksize").getD 0).toNat
  { typesize := none, cname := cname, clevel := intClamp 0 9 clevel,
    shuffle := shuffle, blocksize := blocksize }

/-- Rust `compressor_to_codecs`: the V2 compressor id (lower-cased) selects the
codec list; gzip / zlib / lz4 / zstd map to their codec with a clamped
level; blosc-family ids map to a Blosc codec; anything else maps to the
empty list. -/
def compressor_to_codecs (comp : ZarrCompressor) : List AnyCodec :=
  let idLower := strToLower comp.id
  if idLower = "gzip" then
    [AnyCodec.Gzip { level := min (asU32 ((get_config_int comp.config "level").getD 5)) 9 }]
  else if idLower = "blosc" then
    [AnyCodec.Blosc (blosc_codec_from_config comp none)]
  else if idLower = "zlib" then
    [AnyCodec.Zlib { level := min (asU32 ((get_config_int comp.config "level").getD 1)) 9 }]
  else if idLower = "lz4" then
    let acc := intClamp 0 9 (asI32 ((get_config_int comp.config "acceleration").getD 1))
    [AnyCodec.Lz4 { acceleration := acc }]
  else if idLower = "lz4hc" then
    [AnyCodec.Blosc (blosc_codec_from_config comp (some BloscCname.Lz4hc))]
  else if idLower = "blosclz" then
    [AnyCodec.Blosc (blosc_codec_from_config comp (some BloscCname.Blosclz))]
  else if idLower = "zstd" then
    [AnyCodec.Zstd { level := intClamp 0 9 (asI32 ((get_config_int comp.config "level").getD 5)) }]
  else if idLower = "snappy" then
    [AnyCodec.Blosc (blosc_codec_from_config comp (some BloscCname.Snappy))]
  else []

structure ZarrV2Metadata where
  shape : List Nat
  chunks : List Nat
  dtype : V2DataType
  fill_value : FillValue
  order : ArrayOrder
  compressor : Option ZarrCompressor
  filters : Option Json
  zarr_format : Nat
  keys : List String

/-- Rust `get_codec_equivalents`: the compressor's codec list with a
`Bytes(endian)` codec appended, using the dtype's byte order. -/
def get_codec_equivalents (md : ZarrV2Metadata) : List AnyCodec :=
  (match md.compressor with
   | some comp => compressor_to_codecs comp
   | none => []) ++ [AnyCodec.Bytes { endian := some md.dtype.byte_order }]

-- ---------------------------------------------------------------------------
-- Key generation  (src/metadata/v2.rs)
-- ---------------------------------------------------------------------------

/-- Rust `cartesian_product` (the copy in src/metadata/v2.rs). -/
def cartesian_product : List Nat → List (List Nat)
  | [] => [[]]
  | d :: rest =>
      let tails := cartesian_product rest
      (List.range d).flatMap (fun i => tails.map (fun r => i :: r))

/-- Rust `list_keys`: enumerate the ceil-divided chunk grid and join each index
tuple with dots. -/
def list_keys (shape chunks : List Nat) : List String :=
  let chunksPerDim := List.zipWith (fun s c => (s + c - 1) / c) shape chunks
  (cartesian_product chunksPerDim).map (fun idx =>
    String.intercalate "." (idx.map (fun i => toString i)))

-- ---------------------------------------------------------------------------
-- V2 array metadata parse  (ZarrV2Metadata::parse)
-- ---------------------------------------------------------------------------

/-- A JSON array of `usize` values (the serde parse of `Vec<usize>`). -/
def jsonToUsizeList : Json → Option (List Nat)
  | .arr xs => xs.mapM Json.asU64
  | _ => none

/-- The serde parse of the `order` field ("C" / "c" / "F" / "f"). -/
def jsonToOrder : Json → Option ArrayOrder
  | .str s =>
      if s = "C" ∨ s = "c" then some ArrayOrder.C
      else if s = "F" ∨ s = "f" then some ArrayOrder.F
      else none
  | _ => none

/-- The serde parse of `Option<ZarrCompressor>`: JSON null is `None`; an
object needs a string `id` field, with every other field flattened into
the config map. -/
def parseCompressorField : Json → Except String (Option ZarrCompressor)
  | .null => .ok none
  | .obj fields =>
      match (jsonGet fields "id").bind Json.asStr with
      | none => .error "missing compressor id"
      | some ident =>
          .ok (some { id := ident, config := fields.filter (fun kv => kv.1 ≠ "id") })
  | _ => .error "invalid compressor"

/-- Rust `ZarrV2Metadata::parse` on a JSON value (the byte-level JSON text
parse is serde's and is external): parse `dtype` first, use it to resolve
`fill_value`, parse the remaining fields with serde semantics (defaults
for order / compressor / filters / zarr_format, `fill_value` merely
required to be present), then compute the storage keys. -/
def ZarrV2Metadata.parse (lib : ExtLib) (j : Json) : Except ZarrError ZarrV2Metadata :=
  match j.asObj with
  | none => .error (ZarrError.Metadata "Expected JSON object")
  | some obj =>
    match jsonGet obj "dtype" with
    | none => .error (ZarrError.Metadata "Missing dtype field")
    | some dtypeVal =>
      match dtypeVal.asStr with
      | none => .error (ZarrError.Metadata "dtype must be a string")
      | some dtypeStr =>
        match parse_numpy_dtype dtypeStr with
        | .error e => .error (ZarrError.Metadata e)
        | .ok v2dtype =>
          let fillVal := (jsonGet obj "fill_value").getD Json.null
          match parse_fill_value lib v2dtype.data_type fillVal with
          | .error e => .error (ZarrError.Metadata ("fill_value: " ++ e))
          | .ok fillValue =>
            -- serde phase: required fields and defaults
            match (jsonGet obj "shape").bind jsonToUsizeList with
            | none => .error (ZarrError.Metadata "Metadata parse error: shape")
            | some shape =>
              match (jsonGet obj "chunks").bind jsonToUsizeList with
              | none => .error (ZarrError.Metadata "Metadata parse error: chunks")
              | some chunks =>
                if (jsonGet obj "fill_value").isNone then
                  .error (ZarrError.Metadata "Metadata parse error: missing fill_value")
                else
                  match (jsonGet obj "order").elim (some ArrayOrder.C) jsonToOrder with
                  | none => .error (ZarrError.Metadata "Metadata parse error: order")
                  | some order =>
                    match (jsonGet obj "compressor").elim (Except.ok none)
                        parseCompressorField with
                    | .error _ => .error (ZarrError.Metadata "Metadata parse error: compressor")
                    | .ok compressor =>
                      let filters :=
                        match jsonGet obj "filters" with
                        | none => none
                        | some Json.null => none
                        | some v => some v
                      match (jsonGet obj "zarr_format").elim (some 2)
                          (fun v => (Json.asU64 v).filter (fun n => n < 2 ^ 32)) with
                      | none => .error (ZarrError.Metadata "Metadata parse error: zarr_format")
                      | some zarrFormat =>
                        .ok { shape := shape, chunks := chunks, dtype := v2dtype,
                              fill_value := fillValue, order := order,
                              compressor := compressor, filters := filters,
                              zarr_format := zarrFormat,
                              keys := list_keys shape chunks }

-- ---------------------------------------------------------------------------
-- Consolidated metadata  (ZarrConsolidatedMetadata::parse)
-- ---------------------------------------------------------------------------

structure ZarrConsolidatedMetadata where
  zarr_consolidated_format : Nat
  metadata : List (String × ZarrV2Metadata)

/-- Rust `HashMap::insert` on an association list: replace an existing binding
for the key, else append. -/
def assocInsert (m : List (String × α)) (k : String) (v : α) : List (String × α) :=
  if m.any (fun kv => kv.1 = k) then m.map (fun kv => if kv.1 = k then (k, v) else kv)
  else m ++ [(k, v)]

/-- Fuel-bounded worker for `str::replace` (left-to-right, non
overlapping); the fuel is the input length, enough for every step. -/
def replaceGo (pat rep : List Char) : Nat → List Char → List Char
  | _, [] => []
  | 0, s => s
  | fuel + 1, c :: rest =>
      if pat.length ≠ 0 ∧ (c :: rest).take pat.length = pat then
        rep ++ replaceGo pat rep fuel ((c :: rest).drop pat.length)
      else c :: replaceGo pat rep fuel rest

/-- Rust `str::replace`: replace every non-overlapping occurrence of `pat`. -/
def replaceList (s pat rep : List Char) : List Char :=
  replaceGo pat rep s.length s

/-- Rust `str::starts_with` on character lists. -/
def startsWithList (s pre : List Char) : Bool := s.take pre.length = pre

/-- Rust `str::ends_with` on character lists. -/
def endsWithList (s suffix : List Char) : Bool :=
  s.reverse.take suffix.length = suffix.reverse

/-- The array name of a consolidated entry key: drop the `.zarray` suffix
(with or without a leading path separator) and any leading slashes. -/
def stripZarrayName (key : String) : String :=
  let name := replaceList (replaceList key.data "/.zarray".data "".data) ".zarray".data "".data
  String.mk (name.dropWhile (fun c => c = '/'))

/-- One entry of the consolidated-metadata loop: filter out `.z`-prefixed
and `.zattrs` / `.zgroup` keys; parse `.zarray` entries, silently skipping
entries that fail to parse; attempt non-`.zarray` objects that carry a
`shape` field best-effort. -/
def consolidatedStep (lib : ExtLib) (acc : List (String × ZarrV2Metadata))
    (key : String) (value : Json) : List (String × ZarrV2Metadata) :=
  if startsWithList key.data ".z".data ∨ endsWithList key.data ".zattrs".data
      ∨ endsWithList key.data ".zgroup".data then acc
  else if ¬ endsWithList key.data ".zarray".data then
    match value with
    | .obj fields =>
        if (jsonGet fields "shape").isSome then
          match ZarrV2Metadata.parse lib value with
          | .ok md => assocInsert acc (stripZarrayName key) md
          | .error _ => acc
        else acc
    | _ => acc
  else
    match ZarrV2Metadata.parse lib value with
    | .ok md => assocInsert acc (stripZarrayName key) md
    | .error _ => acc

/-- Rust `ZarrConsolidatedMetadata::parse` on a JSON value: requires a JSON
object with a `metadata` object field; the format version defaults to 1;
each metadata entry is handled by `consolidatedStep`. -/
def ZarrConsolidatedMetadata.parse (lib : ExtLib) (j : Json) :
    Except ZarrError ZarrConsolidatedMetadata :=
  match j.asObj with
  | none => .error (ZarrError.Metadata "Expected JSON object")
  | some obj =>
    let format := ((jsonGet obj "zarr_consolidated_format").bind Json.asU64).getD 1
    match (jsonGet obj "metadata").bind Json.asObj with
    | none => .error (ZarrError.Metadata "Missing metadata field")
    | some metadataObj =>
        let arrays := metadataObj.foldl
          (fun acc kv => consolidatedStep lib acc kv.1 kv.2) []
        .ok { zarr_consolidated_format := format, metadata := arrays }

-- ---------------------------------------------------------------------------
-- Unified metadata and chunk merging  (src/array.rs)
-- ---------------------------------------------------------------------------

/-- Rust `UnifiedMetadata`, restricted to the fields the modelled operations
read (compression info, attributes and dimension names are carried along
in the source but never read by the chunk pipeline). -/
structure UnifiedMetadata where
  shape : List Nat
  chunk_shape : List Nat
  data_type : DataType
  fill_value : FillValue
  order : ArrayOrder
  zarr_format : Nat
  keys : List String

/-- The v2 `open` conversion from parsed `.zarray` metadata to the
unified metadata. -/
def toUnified (md : ZarrV2Metadata) : UnifiedMetadata :=
  { shape := md.shape, chunk_shape := md.chunks, data_type := md.dtype.data_type,
    fill_value := md.fill_value, order := md.order, zarr_format := md.zarr_format,
    keys := md.keys }

/-- The inner loop of `merge_chunks`: scatter one decoded chunk into the
flat buffer.  Each local position is offset by key * chunk_shape, bounds
checked against the array shape, flattened with the array strides, and
written when in range. -/
def mergeOneChunk (md : UnifiedMetadata) (key : String) (chunkData : List Fl)
    (buf : List Fl) : List Fl :=
  let totalSize := md.shape.prod
  let arrStrides := strides md.shape md.order
  let keyIndices := parse_key_string key
  let chunkIndices := cartesian_indices md.chunk_shape
  chunkIndices.enum.foldl (fun acc p =>
    let localIdx := p.1
    let localPos := p.2
    let global := List.zipWith (fun lpki cs => lpki.2 * cs + lpki.1)
      (localPos.zip keyIndices) md.chunk_shape
    let inBounds := (global.zip md.shape).all (fun gs => gs.1 < gs.2)
    if inBounds then
      let flat := (List.zipWith (fun g s => g * s) global arrStrides).sum
      if flat < totalSize ∧ localIdx < chunkData.length then
        acc.set flat (chunkData.getD localIdx (mkFinite 0 0))
      else acc
    else acc) buf

/-- The chunk loop of `merge_chunks`, propagating a `to_f64_vec` failure. -/
def mergeLoop (md : UnifiedMetadata) :
    List (String × ZarrVectorValue) → List Fl → Except ZarrError (List Fl)
  | [], buf => .ok buf
  | (key, chunk) :: rest, buf =>
      match chunk.to_f64_vec with
      | .error e => .error e
      | .ok chunkData => mergeLoop md rest (mergeOneChunk md key chunkData buf)

/-- Rust `merge_chunks`: pre-fill a buffer of size `product(shape)` with
`fill_value.to_f64()`, then scatter every decoded chunk into it. -/
def merge_chunks (chunk_map : List (String × ZarrVectorValue)) (md : UnifiedMetadata) :
    Except ZarrError (List Fl) :=
  mergeLoop md chunk_map (List.replicate md.shape.prod md.fill_value.to_f64)

-- ---------------------------------------------------------------------------
-- V2 chunk getter and whole-array load  (src/v2.rs, src/array.rs)
-- ---------------------------------------------------------------------------

/-- A storage backend's `get`, as a pure map from path to an optional
byte blob (possibly failing with a storage error). -/
def Store := String → Except ZarrError (Option (List Nat))

/-- Rust `StorageBackend::join` for path-style backends. -/
def storeJoin (base segment : String) : String :=
  if base.isEmpty then segment else base ++ "/" ++ segment

/-- Rust `create_v2_chunk_getter`: validate the key arity against the shape,
format the dotted key string and require it to be a known storage key,
then fetch the blob and hand it to `parse_chunk` with the codec list
derived from the compressor. -/
def create_v2_chunk_getter (lib : ExtLib) (store : Store) (basePath : String)
    (md : ZarrV2Metadata) (key : List Nat) : Except ZarrError ZarrVectorValue :=
  let codecs := get_codec_equivalents md
  if key.length ≠ md.shape.length then
    .error (ZarrError.Other "Key dimensionality must match array shape")
  else
    let keyStr := String.intercalate "." (key.map (fun i => toString i))
    if ¬ md.keys.contains keyStr then
      .error (ZarrError.NotFound "Storage key not found")
    else
      let chunkPath := storeJoin basePath keyStr
      match store chunkPath with
      | .error e => .error e
      | .ok bytes => parse_chunk lib bytes md.dtype.data_type md.chunks md.fill_value codecs

/-- Rust `UnifiedZarrArray::load`: call the chunk getter for every storage key
(the concurrent spawn is modelled sequentially in key order), surface the
first error once all results are in, else merge the decoded chunks. -/
def loadArray (md : UnifiedMetadata)
    (getter : List Nat → Except ZarrError ZarrVectorValue) : Except ZarrError (List Fl) :=
  let results := md.keys.map (fun key => (key, getter (parse_key_string key)))
  let errors := results.filterMap (fun kv =>
    match kv.2 with
    | .error e => some e
    | .ok _ => none)
  match errors with
  | e :: _ => .error e
  | [] =>
      let chunkMap := results.filterMap (fun kv =>
        match kv.2 with
        | .ok c => some (kv.1, c)
        | .error _ => none)
      merge_chunks chunkMap md

/-- Whole-array load of an opened v2 array: the metadata comes from the
parsed `.zarray` and the getter from `create_v2_chunk_getter`. -/
def v2Load (lib : ExtLib) (store : Store) (path : String) (md : ZarrV2Metadata) :
    Except ZarrError (List Fl) :=
  loadArray (toUnified md) (create_v2_chunk_getter lib store path md)

-- ---------------------------------------------------------------------------
-- Concrete instances used by the theorems below
-- ---------------------------------------------------------------------------

deriving instance DecidableEq for Except

/-- A trivial instantiation of the external-library record (identity
transforms), used to evaluate library-independent paths on concrete
inputs. -/
def trivLib : ExtLib where
  gzipDecompress := fun x => .ok x
  gzipCompress := fun _ x => .ok x
  zlibDecompress := fun x => .ok x
  zlibCompress := fun _ x => .ok x
  zstdDecompress := fun x => .ok x
  zstdCompress := fun _ x => .ok x
  lz4BlockCompress := fun x => x
  lz4BlockDecompress := fun x n => .ok (x.take n)
  bloscDecompress := fun x => .ok x
  bloscCompress := fun _ _ x => .ok x
  fsoConvert := fun _ _ _ => []
  f64ToF32Round := fun x => x
  f16FromF64 := fun x => x

/-- The `.zarray` document of the missing-chunk-with-NaN-fill scenario:
shape [2], chunks [1], dtype little-endian f32, fill_value "NaN". -/
def c1Json : Json := Json.obj
  [("shape", Json.arr [Json.intNum 2]),
   ("chunks", Json.arr [Json.intNum 1]),
   ("dtype", Json.str "<f4"),
   ("fill_value", Json.str "NaN"),
   ("order", Json.str "C"),
   ("compressor", Json.null)]

/-- The store of the scenario: chunk 0 holds the little-endian f32 bytes
of 1.5; chunk 1 is absent. -/
def c1Store : Store := fun p =>
  if p = "arr/0" then .ok (some [0, 0, 192, 63]) else .ok none

/-- Metadata of a one-element String-dtype array (used to exhibit a chunk
decode failure that no codec produced). -/
def c4Md : ZarrV2Metadata :=
  { shape := [1], chunks := [1],
    dtype := { data_type := .String, byte_order := .NotApplicable, time_unit := none },
    fill_value := .Value (.String ""), order := .C, compressor := none,
    filters := none, zarr_format := 2, keys := ["0"] }

/-- A store holding one single-byte blob for `c4Md`. -/
def c4Store : Store := fun p =>
  if p = "p/0" then .ok (some [1]) else .ok none

/-- Metadata of a one-element f32 array whose compressor id is unknown. -/
def c9Md : ZarrV2Metadata :=
  { shape := [1], chunks := [1],
    dtype := { data_type := .Float32, byte_order := .Little, time_unit := none },
    fill_value := .Value (.Float32 (mkFinite 0 0)), order := .C,
    compressor := some { id := "bz2", config := [] },
    filters := none, zarr_format := 2, keys := ["0"] }

/-- Unified metadata with the NaN fill sentinel (shape [2], chunks [1]). -/
def c3Md : UnifiedMetadata :=
  { shape := [2], chunk_shape := [1], data_type := .Float32,
    fill_value := .NaN, order := .C, zarr_format := 2, keys := ["0", "1"] }

/-- The (type_code, byte_size) table exactly as the specification states
it (the claim's table, with the datetime / timedelta codes the claim's
fourth example maps to Int64).  This is the spec-side definition compared
against `numpy_core`, which is embedded from the source. -/
def claimDtypeTable (tc : Char) (n : Nat) : Option DataType :=
  if tc = 'b' ∧ n = 1 then some .Bool
  else if tc = 'i' ∧ n = 1 then some .Int8
  else if tc = 'i' ∧ n = 2 then some .Int16
  else if tc = 'i' ∧ n = 4 then some .Int32
  else if tc = 'i' ∧ n = 8 then some .Int64
  else if tc = 'u' ∧ n = 1 then some .UInt8
  else if tc = 'u' ∧ n = 2 then some .UInt16
  else if tc = 'u' ∧ n = 4 then some .UInt32
  else if tc = 'u' ∧ n = 8 then some .UInt64
  else if tc = 'f' ∧ n = 2 then some .Float16
  else if tc = 'f' ∧ n = 4 then some .Float32
  else if tc = 'f' ∧ n = 8 then some .Float64
  else if tc = 'c' ∧ n = 8 then some .Complex64
  else if tc = 'c' ∧ n = 16 then some .Complex128
  else if tc = 'S' then some .String
  else if tc = 'U' then some .String
  else if tc = 'V' then some .Bytes
  else if tc = 'M' then some .Int64
  else if tc = 'm' then some .Int64
  else none

-- ---------------------------------------------------------------------------
-- Helper lemmas: strides and cartesian enumeration
-- ---------------------------------------------------------------------------

theorem scanProd_append (xs : List Nat) (d : Nat) :
    ∀ acc, scanProd (xs ++ [d]) acc = scanProd xs acc ++ [acc * xs.prod] := by
  induction xs with
  | nil => intro acc; simp [scanProd]
  | cons x xs ih =>
      intro acc
      simp [scanProd, ih (acc * x), mul_assoc]

theorem strides_c_cons (d : Nat) (rest : List Nat) :
    strides (d :: rest) ArrayOrder.C = rest.prod :: strides rest ArrayOrder.C := by
  simp [strides, List.reverse_cons, scanProd_append, List.prod_reverse]

theorem linear_index_c_cons (d i : Nat) (rest idx : List Nat) :
    linear_index (d :: rest) ArrayOrder.C (i :: idx)
      = i * rest.prod + linear_index rest ArrayOrder.C idx := by
  simp [linear_index, strides_c_cons]

theorem cartesian_indices_length (shape : List Nat) :
    (cartesian_indices shape).length = shape.prod := by
  induction shape with
  | nil => rfl
  | cons d rest ih =>
      simp [cartesian_indices, List.length_flatMap, Function.comp_def, ih,
        List.map_const, List.sum_replicate, smul_eq_mul]

theorem flatMap_range_length {β : Type} (g : Nat → List β) (L : Nat)
    (hg : ∀ i, (g i).length = L) (n : Nat) :
    ((List.range n).flatMap g).length = n * L := by
  simp [List.length_flatMap, Function.comp_def, hg, List.map_const, List.sum_replicate,
    smul_eq_mul]

theorem flatMap_range_getElem {β : Type} (g : Nat → List β) (L : Nat)
    (hg : ∀ i, (g i).length = L) :
    ∀ (n k : Nat), k < n * L →
      ((List.range n).flatMap g)[k]? = (g (k / L))[k % L]? := by
  intro n
  induction n with
  | zero => intro k hk; omega
  | succ n ih =>
      intro k hk
      have hlen : ((List.range n).flatMap g).length = n * L :=
        flatMap_range_length g L hg n
      rw [List.range_succ, List.flatMap_append]
      by_cases hc : k < n * L
      · rw [List.getElem?_append, if_pos (by rw [hlen]; exact hc)]
        exact ih k hc
      · have hkk : k < n * L + L := by
          have h2 : (n + 1) * L = n * L + L := by ring
          omega
        have hL : 0 < L := by omega
        have hk1 : n * L ≤ k := Nat.le_of_not_lt hc
        have hr : k - n * L < L := by omega
        have h1 : k = L * n + (k - n * L) := by
          have := Nat.mul_comm L n
          omega
        have hdiv : k / L = n := by
          conv_lhs => rw [h1]
          rw [Nat.mul_add_div hL, Nat.div_eq_of_lt hr]
          omega
        have hmod : k % L = k - n * L := by
          conv_lhs => rw [h1]
          rw [Nat.mul_add_mod, Nat.mod_eq_of_lt hr]
        rw [List.getElem?_append_right (by rw [hlen]; exact hk1), hlen]
        simp only [List.flatMap_cons, List.flatMap_nil, List.append_nil]
        rw [hdiv, hmod]

theorem cartesian_linear_aux :
    ∀ (shape : List Nat) (k : Nat) (idx : List Nat),
      (cartesian_indices shape)[k]? = some idx →
      linear_index shape ArrayOrder.C idx = k := by
  intro shape
  induction shape with
  | nil =>
      intro k idx h
      match k with
      | 0 =>
          simp [cartesian_indices] at h
          subst h
          rfl
      | k + 1 => simp [cartesian_indices] at h
  | cons d rest ih =>
      intro k idx h
      have hklen : k < (cartesian_indices (d :: rest)).length := by
        by_contra hnk
        rw [List.getElem?_eq_none (by omega)] at h
        exact Option.noConfusion h
      have hlen_t : (cartesian_indices rest).length = rest.prod :=
        cartesian_indices_length rest
      have hcart : cartesian_indices (d :: rest)
          = (List.range d).flatMap
              (fun i => (cartesian_indices rest).map (fun r => i :: r)) := rfl
      have hg : ∀ i, ((cartesian_indices rest).map (fun r => i :: r)).length
          = (cartesian_indices rest).length := by
        intro i; simp
      have hklt : k < d * (cartesian_indices rest).length := by
        rw [hcart] at hklen
        rw [← flatMap_range_length (fun i => (cartesian_indices rest).map (fun r => i :: r))
          (cartesian_indices rest).length hg d]
        exact hklen
      rw [hcart, flatMap_range_getElem _ (cartesian_indices rest).length hg d k hklt,
        List.getElem?_map] at h
      cases htl : (cartesian_indices rest)[k % (cartesian_indices rest).length]? with
      | none => rw [htl] at h; exact Option.noConfusion h
      | some tidx =>
          rw [htl] at h
          simp only [Option.map_some'] at h
          injection h with h2
          subst h2
          rw [linear_index_c_cons, ih _ tidx htl, ← hlen_t]
          have hdm := Nat.div_add_mod k (cartesian_indices rest).length
          have hcm : (cartesian_indices rest).length * (k / (cartesian_indices rest).length)
              = k / (cartesian_indices rest).length * (cartesian_indices rest).length :=
            Nat.mul_comm _ _
          omega

-- ---------------------------------------------------------------------------
-- Helper lemmas: merge buffer length
-- ---------------------------------------------------------------------------

theorem foldl_length_invariant {α : Type} (f : List Fl → α → List Fl)
    (hf : ∀ b p, (f b p).length = b.length) :
    ∀ (l : List α) (b : List Fl), (l.foldl f b).length = b.length := by
  intro l
  induction l with
  | nil => intro b; rfl
  | cons x xs ih => intro b; rw [List.foldl_cons, ih, hf]

theorem mergeOneChunk_length (md : UnifiedMetadata) (key : String) (cd buf : List Fl) :
    (mergeOneChunk md key cd buf).length = buf.length := by
  unfold mergeOneChunk
  apply foldl_length_invariant
  intro b p
  dsimp only
  split
  · split
    · exact List.length_set b _ _
    · rfl
  · rfl

theorem mergeLoop_length (md : UnifiedMetadata) :
    ∀ (chunks : List (String × ZarrVectorValue)) (buf out : List Fl),
      mergeLoop md chunks buf = .ok out → out.length = buf.length := by
  intro chunks
  induction chunks with
  | nil =>
      intro buf out h
      injection h with h
      rw [← h]
  | cons kc rest ih =>
      intro buf out h
      obtain ⟨key, chunk⟩ := kc
      unfold mergeLoop at h
      cases hv : chunk.to_f64_vec with
      | error e => rw [hv] at h; exact Except.noConfusion h
      | ok cd =>
          rw [hv] at h
          rw [ih _ _ h, mergeOneChunk_length]

-- ---------------------------------------------------------------------------
-- C1
-- ---------------------------------------------------------------------------

/-- C1: REFUTED ON THE CODE (code bug).  For the v2 array with shape [2],
chunks [1], dtype "<f4", fill_value "NaN", chunk 0 = [1.5] and chunk 1
absent, the claim (and the spec scenario) state `load()` returns
[1.5, NaN].  The code returns [1.5, 0.0]: `FillValue::to_zarr_value`
collapses the NaN sentinel to `default_scalar` (0.0), so the absent chunk
is materialised as zeros which then overwrite the NaN-prefilled merge
buffer. -/
theorem c1_missing_chunk_nan_fill_bug :
    (ZarrV2Metadata.parse trivLib c1Json).map (v2Load trivLib c1Store "arr")
      = .ok (.ok [Fl.finite 3 (-1), Fl.finite 0 0])
    ∧ Fl.finite 0 0 ≠ Fl.nan := by
  exact ⟨by decide, by decide⟩

-- ---------------------------------------------------------------------------
-- C2
-- ---------------------------------------------------------------------------

/-- C2 counterexample: the claim fails for Fortran order.  At shape
[2, 3], entry 1 of the enumeration is [0, 1], whose F-order linear index
is 2, not 1. -/
theorem c2_forder_counterexample :
    (cartesian_indices [2, 3])[1]? = some [0, 1]
    ∧ linear_index [2, 3] ArrayOrder.F [0, 1] = 2
    ∧ ¬ linear_index [2, 3] ArrayOrder.F [0, 1] = 1 := by
  refine ⟨by decide, by decide, by decide⟩

/-- C2 (amended to C order): for every shape and every index k into the
enumeration, flattening the k-th multi-index with the C-order strides
gives back k. -/
theorem c2_cartesian_linear_index_c_order (shape : List Nat) (k : Nat)
    (h : k < (cartesian_indices shape).length) :
    linear_index shape ArrayOrder.C ((cartesian_indices shape).get ⟨k, h⟩) = k := by
  apply cartesian_linear_aux shape k
  rw [List.getElem?_eq_getElem h]
  rfl

/-- C2 witness: concrete instance at shape [2, 3], k = 4. -/
theorem c2_cartesian_linear_index_c_order_witness :
    ∃ h : 4 < (cartesian_indices [2, 3]).length,
      linear_index [2, 3] ArrayOrder.C ((cartesian_indices [2, 3]).get ⟨4, h⟩) = 4 :=
  ⟨by decide, c2_cartesian_linear_index_c_order [2, 3] 4 (by decide)⟩

-- ---------------------------------------------------------------------------
-- C3
-- ---------------------------------------------------------------------------

/-- C3 counterexample: `to_f64` does not yield NaN for the Infinity
sentinel; it yields positive infinity (and negative infinity for the
-Infinity sentinel). -/
theorem c3_infinity_to_f64_counterexample :
    FillValue.Infinity.to_f64 = Fl.inf ∧ Fl.inf ≠ Fl.nan := by
  refine ⟨rfl, by decide⟩

/-- C3 (amended): the whole-array f64 merge buffer has length
product(shape) and is initialized everywhere with `fill_value.to_f64()`
before any chunk is merged; `to_f64` yields NaN for the NaN sentinel,
positive infinity for Infinity and negative infinity for -Infinity. -/
theorem c3_merge_buffer_init_amended (md : UnifiedMetadata)
    (chunks : List (String × ZarrVectorValue)) (out : List Fl)
    (h : merge_chunks chunks md = .ok out) :
    merge_chunks [] md = .ok (List.replicate md.shape.prod md.fill_value.to_f64)
    ∧ out.length = md.shape.prod
    ∧ FillValue.NaN.to_f64 = Fl.nan
    ∧ FillValue.Infinity.to_f64 = Fl.inf
    ∧ FillValue.NegativeInfinity.to_f64 = Fl.neginf := by
  refine ⟨rfl, ?_, rfl, rfl, rfl⟩
  have hl := mergeLoop_length md chunks _ out h
  rw [hl, List.length_replicate]

/-- C3 witness: concrete instance at the NaN-filled metadata. -/
theorem c3_merge_buffer_init_amended_witness :
    merge_chunks [] c3Md = .ok (List.replicate c3Md.shape.prod c3Md.fill_value.to_f64)
    ∧ (List.replicate 2 Fl.nan).length = c3Md.shape.prod
    ∧ FillValue.NaN.to_f64 = Fl.nan
    ∧ FillValue.Infinity.to_f64 = Fl.inf
    ∧ FillValue.NegativeInfinity.to_f64 = Fl.neginf :=
  c3_merge_buffer_init_amended c3Md [] (List.replicate 2 Fl.nan) rfl

-- ---------------------------------------------------------------------------
-- C7
-- ---------------------------------------------------------------------------

/-- C7: the NumPy dtype parser realizes exactly the claimed
(type_code, byte_size) table - unsupported pairs fail - and the four
concrete parses hold: "<f8" is little-endian Float64, "|b1" is Bool with
no applicable byte order, ">i4" is big-endian Int32, and "<M8[ns]" is
little-endian Int64 with time unit "ns". -/
theorem c7_numpy_dtype_table (tc : Char) (n : Nat) :
    numpy_core tc n
      = (claimDtypeTable tc n).elim (Except.error "Unsupported NumPy type") Except.ok
    ∧ parse_numpy_dtype "<f8"
        = .ok { data_type := .Float64, byte_order := .Little, time_unit := none }
    ∧ parse_numpy_dtype "|b1"
        = .ok { data_type := .Bool, byte_order := .NotApplicable, time_unit := none }
    ∧ parse_numpy_dtype ">i4"
        = .ok { data_type := .Int32, byte_order := .Big, time_unit := none }
    ∧ parse_numpy_dtype "<M8[ns]"
        = .ok { data_type := .Int64, byte_order := .Little, time_unit := some "ns" } := by
  refine ⟨?_, by decide, by decide, by decide, by decide⟩
  unfold numpy_core claimDtypeTable
  simp only [apply_ite
    (fun o : Option DataType => o.elim (Except.error "Unsupported NumPy type") Except.ok)]
  rfl

-- ---------------------------------------------------------------------------
-- C5
-- ---------------------------------------------------------------------------

theorem decodeSeq_eq_foldlM (lib : ExtLib) :
    ∀ (l : List AnyCodec) (buf : List Nat),
      decodeSeq lib l buf = l.foldlM (fun b c => AnyCodec.decode lib c b) buf := by
  intro l
  induction l with
  | nil => intro buf; rfl
  | cons c rest ih =>
      intro buf
      rw [List.foldlM_cons]
      show (match AnyCodec.decode lib c buf with
            | Except.error e => Except.error e
            | Except.ok buf2 => decodeSeq lib rest buf2) = _
      cases h : AnyCodec.decode lib c buf with
      | error e => rfl
      | ok b2 => exact ih b2

theorem decodeSeq_error_iff (lib : ExtLib) :
    ∀ (l : List AnyCodec) (buf : List Nat) (e : ZarrError),
      decodeSeq lib l buf = .error e
        ↔ ∃ i, ∃ h : i < l.length, ∃ v,
            decodeSeq lib (l.take i) buf = .ok v
            ∧ AnyCodec.decode lib (l.get ⟨i, h⟩) v = .error e := by
  intro l
  induction l with
  | nil =>
      intro buf e
      constructor
      · intro h; exact Except.noConfusion h
      · rintro ⟨i, hi, -⟩; exact absurd hi (Nat.not_lt_zero i)
  | cons c rest ih =>
      intro buf e
      have hstep : decodeSeq lib (c :: rest) buf
          = (match AnyCodec.decode lib c buf with
             | Except.error e2 => Except.error e2
             | Except.ok buf2 => decodeSeq lib rest buf2) := rfl
      cases h : AnyCodec.decode lib c buf with
      | error e2 =>
          rw [hstep, h]
          constructor
          · intro he
            injection he with he
            subst he
            exact ⟨0, Nat.succ_pos _, buf, rfl, h⟩
          · rintro ⟨i, hi, v, hpre, hdec⟩
            cases i with
            | zero =>
                injection hpre with hpre
                subst hpre
                have hdec2 : AnyCodec.decode lib c buf = Except.error e := hdec
                rw [h] at hdec2
                injection hdec2 with hdec2
                rw [hdec2]
            | succ i =>
                have hpre2 : (match AnyCodec.decode lib c buf with
                    | Except.error e3 => Except.error e3
                    | Except.ok buf2 => decodeSeq lib (rest.take i) buf2)
                    = Except.ok v := hpre
                rw [h] at hpre2
                exact Except.noConfusion hpre2
      | ok b2 =>
          rw [hstep, h]
          constructor
          · intro he
            obtain ⟨i, hi, v, hpre, hdec⟩ := (ih b2 e).1 he
            refine ⟨i + 1, Nat.succ_lt_succ hi, v, ?_, hdec⟩
            have hpre2 : (match AnyCodec.decode lib c buf with
                | Except.error e3 => Except.error e3
                | Except.ok buf2 => decodeSeq lib (rest.take i) buf2)
                = Except.ok v := by rw [h]; exact hpre
            exact hpre2
          · rintro ⟨i, hi, v, hpre, hdec⟩
            cases i with
            | zero =>
                injection hpre with hpre
                subst hpre
                have hdec2 : AnyCodec.decode lib c buf = Except.error e := hdec
                rw [h] at hdec2
                exact Except.noConfusion hdec2
            | succ i =>
                have hpre2 : (match AnyCodec.decode lib c buf with
                    | Except.error e3 => Except.error e3
                    | Except.ok buf2 => decodeSeq lib (rest.take i) buf2)
                    = Except.ok v := hpre
                rw [h] at hpre2
                exact (ih b2 e).2 ⟨i, Nat.lt_of_succ_lt_succ hi, v, hpre2, hdec⟩

/-- C5: the decode pipeline equals the fold of each codec's decode over
the input, taking the codecs in reverse list order (the last codec in the
metadata list decodes first), and it fails exactly when some codec's
decode in that reversed sequence fails (at the first such codec, every
earlier stage having succeeded). -/
theorem c5_pipeline_reverse_fold (lib : ExtLib) (codecs : List AnyCodec) (data : List Nat) :
    apply_codec_pipeline lib codecs data
      = codecs.reverse.foldlM (fun buf c => AnyCodec.decode lib c buf) data
    ∧ ∀ e, apply_codec_pipeline lib codecs data = .error e
        ↔ ∃ i, ∃ h : i < codecs.reverse.length, ∃ v,
            decodeSeq lib (codecs.reverse.take i) data = .ok v
            ∧ AnyCodec.decode lib (codecs.reverse.get ⟨i, h⟩) v = .error e :=
  ⟨decodeSeq_eq_foldlM lib codecs.reverse data,
   fun e => decodeSeq_error_iff lib codecs.reverse data e⟩

/-- C5 witness: concrete two-codec pipeline (a sharding placeholder after
a bytes codec fails at reversed position 0). -/
theorem c5_pipeline_reverse_fold_witness :
    apply_codec_pipeline trivLib
        [AnyCodec.Bytes { endian := some Endian.Little },
         AnyCodec.Sharding { chunk_shape := [], codecs := [] }] [3, 4]
      = ([AnyCodec.Bytes { endian := some Endian.Little },
          AnyCodec.Sharding { chunk_shape := [], codecs := [] }].reverse).foldlM
          (fun buf c => AnyCodec.decode trivLib c buf) [3, 4]
    ∧ ∀ e, apply_codec_pipeline trivLib
        [AnyCodec.Bytes { endian := some Endian.Little },
         AnyCodec.Sharding { chunk_shape := [], codecs := [] }] [3, 4] = .error e
        ↔ ∃ i, ∃ h : i < ([AnyCodec.Bytes { endian := some Endian.Little },
            AnyCodec.Sharding { chunk_shape := [], codecs := [] }].reverse).length, ∃ v,
            decodeSeq trivLib (([AnyCodec.Bytes { endian := some Endian.Little },
              AnyCodec.Sharding { chunk_shape := [], codecs := [] }].reverse).take i) [3, 4]
              = .ok v
            ∧ AnyCodec.decode trivLib
                (([AnyCodec.Bytes { endian := some Endian.Little },
                  AnyCodec.Sharding { chunk_shape := [], codecs := [] }].reverse).get ⟨i, h⟩) v
              = .error e :=
  c5_pipeline_reverse_fold trivLib
    [AnyCodec.Bytes { endian := some Endian.Little },
     AnyCodec.Sharding { chunk_shape := [], codecs := [] }] [3, 4]

-- ---------------------------------------------------------------------------
-- C6
-- ---------------------------------------------------------------------------

/-- C6: `bytes_to_zarr_vector` on a fixed-size dtype succeeds for every
endian and input, returning exactly floor(length / byte_size) elements
(the trailing partial element is dropped); for the String and Bytes
dtypes it always fails with a Decode error. -/
theorem c6_bytes_to_typed_vector_shape (endian : Endian) (dtype : DataType)
    (data : List Nat) :
    (∀ s, dtype.byte_size = some s →
      ∃ v, bytes_to_zarr_vector endian dtype data = .ok v ∧ v.len = data.length / s)
    ∧ ((dtype = .String ∨ dtype = .Bytes) →
      ∃ msg, bytes_to_zarr_vector endian dtype data = .error (.Decode msg)) := by
  cases dtype
  case String =>
      refine ⟨fun s hs => ?_, fun _ => ⟨_, rfl⟩⟩
      simp [DataType.byte_size] at hs
  case Bytes =>
      refine ⟨fun s hs => ?_, fun _ => ⟨_, rfl⟩⟩
      simp [DataType.byte_size] at hs
  all_goals refine ⟨fun s hs => ?_, fun hsb => by simp at hsb⟩
  all_goals injection hs with hs
  all_goals subst hs
  all_goals exact ⟨_, rfl, by
    simp [ZarrVectorValue.len, readElems, Nat.div_one]⟩

/-- C6 witness: a 5-byte input decodes as one Int32 element, and the
String dtype fails with a Decode error. -/
theorem c6_bytes_to_typed_vector_shape_witness :
    (∃ v, bytes_to_zarr_vector Endian.Little DataType.Int32 [1, 2, 3, 4, 5] = .ok v
      ∧ v.len = [1, 2, 3, 4, 5].length / 4)
    ∧ (∃ msg, bytes_to_zarr_vector Endian.Big DataType.String [7] = .error (.Decode msg)) :=
  ⟨(c6_bytes_to_typed_vector_shape Endian.Little DataType.Int32 [1, 2, 3, 4, 5]).1 4 rfl,
   (c6_bytes_to_typed_vector_shape Endian.Big DataType.String [7]).2 (Or.inl rfl)⟩

/-- C7 witness: the table evaluated at the ('f', 8) pair. -/
theorem c7_numpy_dtype_table_witness :
    numpy_core 'f' 8
      = (claimDtypeTable 'f' 8).elim (Except.error "Unsupported NumPy type") Except.ok
    ∧ parse_numpy_dtype "<f8"
        = .ok { data_type := .Float64, byte_order := .Little, time_unit := none }
    ∧ parse_numpy_dtype "|b1"
        = .ok { data_type := .Bool, byte_order := .NotApplicable, time_unit := none }
    ∧ parse_numpy_dtype ">i4"
        = .ok { data_type := .Int32, byte_order := .Big, time_unit := none }
    ∧ parse_numpy_dtype "<M8[ns]"
        = .ok { data_type := .Int64, byte_order := .Little, time_unit := some "ns" } :=
  c7_numpy_dtype_table 'f' 8

-- ---------------------------------------------------------------------------
-- C4
-- ---------------------------------------------------------------------------

theorem fill_chunk_len (v : ZarrValue) (cs : List Nat) :
    (fill_chunk v cs).len = cs.prod := by
  cases v <;> simp [fill_chunk, ZarrVectorValue.len]

theorem bytes_to_zarr_vector_error (endian : Endian) (dtype : DataType)
    (data : List Nat) (e : ZarrError)
    (h : bytes_to_zarr_vector endian dtype data = .error e) :
    (dtype = .String ∨ dtype = .Bytes) ∧ e.isDecode = true := by
  cases dtype
  case String =>
      refine ⟨Or.inl rfl, ?_⟩
      injection h with h2
      rw [← h2]
      rfl
  case Bytes =>
      refine ⟨Or.inr rfl, ?_⟩
      injection h with h2
      rw [← h2]
      rfl
  all_goals exact Except.noConfusion h

/-- C4 counterexample: the claim's final clause ("only codec decode
failures abort the chunk decode with an error") is false.  For a
String-dtype array with a present one-byte blob, every codec in the
pipeline succeeds (the pipeline returns the bytes unchanged) yet the
chunk decode aborts with a Decode error, raised by the byte-to-typed
-vector interpretation rather than by any codec. -/
theorem c4_noncodec_decode_failure_counterexample :
    (∃ e, create_v2_chunk_getter trivLib c4Store "p" c4Md [0] = .error e
      ∧ e.isDecode = true)
    ∧ apply_codec_pipeline trivLib (get_codec_equivalents c4Md) [1] = .ok [1] := by
  refine ⟨⟨ZarrError.Decode
    "Cannot interpret raw bytes as String/Bytes vector without length info",
    by decide, rfl⟩, by decide⟩

/-- C4 (amended): the chunk getter fails with the Other kind on a key
arity mismatch, with the NotFound kind when the dotted key string is not
among the storage keys, treats a missing or empty blob as a filled chunk
of length product(chunk_shape) rather than an error, and a present
non-empty blob can only fail through a codec decode failure or through
the raw-bytes-to-typed-vector step (String / Bytes dtypes, a Decode
error). -/
theorem c4_chunk_getter_error_policy_amended (lib : ExtLib) (store : Store)
    (basePath : String) (md : ZarrV2Metadata) (key : List Nat) :
    (key.length ≠ md.shape.length →
      create_v2_chunk_getter lib store basePath md key
        = .error (.Other "Key dimensionality must match array shape"))
    ∧ (key.length = md.shape.length →
       ¬ md.keys.contains (String.intercalate "." (key.map (fun i => toString i))) = true →
      create_v2_chunk_getter lib store basePath md key
        = .error (.NotFound "Storage key not found"))
    ∧ (∀ blob, key.length = md.shape.length →
       md.keys.contains (String.intercalate "." (key.map (fun i => toString i))) = true →
       store (storeJoin basePath
         (String.intercalate "." (key.map (fun i => toString i)))) = .ok blob →
       (blob = none ∨ blob = some []) →
       create_v2_chunk_getter lib store basePath md key
         = .ok (fill_chunk (md.fill_value.to_zarr_value md.dtype.data_type) md.chunks)
       ∧ (fill_chunk (md.fill_value.to_zarr_value md.dtype.data_type) md.chunks).len
           = md.chunks.prod)
    ∧ (∀ raw e, key.length = md.shape.length →
       md.keys.contains (String.intercalate "." (key.map (fun i => toString i))) = true →
       store (storeJoin basePath
         (String.intercalate "." (key.map (fun i => toString i)))) = .ok (some raw) →
       raw ≠ [] →
       create_v2_chunk_getter lib store basePath md key = .error e →
       apply_codec_pipeline lib (get_codec_equivalents md) raw = .error e
       ∨ (∃ buf, apply_codec_pipeline lib (get_codec_equivalents md) raw = .ok buf
            ∧ (md.dtype.data_type = .String ∨ md.dtype.data_type = .Bytes)
            ∧ e.isDecode = true)) := by
  refine ⟨?_, ?_, ?_, ?_⟩
  · intro h
    dsimp only [create_v2_chunk_getter]
    rw [if_pos h]
  · intro h1 h2
    dsimp only [create_v2_chunk_getter]
    rw [if_neg (fun hc => hc h1), if_pos h2]
  · intro blob h1 h2 h3 h4
    refine ⟨?_, fill_chunk_len _ _⟩
    dsimp only [create_v2_chunk_getter]
    rw [if_neg (fun hc => hc h1), if_neg (fun hc => hc h2), h3]
    rcases h4 with rfl | rfl <;> rfl
  · intro raw e h1 h2 h3 hraw herr
    dsimp only [create_v2_chunk_getter] at herr
    rw [if_neg (fun hc => hc h1), if_neg (fun hc => hc h2), h3] at herr
    have hre : raw.isEmpty = false := by
      cases raw with
      | nil => exact absurd rfl hraw
      | cons a as => rfl
    have herr2 : (match apply_codec_pipeline lib (get_codec_equivalents md) raw with
        | Except.error e2 => Except.error e2
        | Except.ok decompressed =>
            bytes_to_zarr_vector
              (((get_codec_equivalents md).findSome? AnyCodec.bytes_endian).getD
                Endian.Little)
              md.dtype.data_type decompressed) = Except.error e := by
      rw [← herr]
      show _ = (match some raw with
        | some raw2 =>
            if raw2.isEmpty then
              Except.ok (fill_chunk (md.fill_value.to_zarr_value md.dtype.data_type) md.chunks)
            else
              match apply_codec_pipeline lib (get_codec_equivalents md) raw2 with
              | Except.error e2 => Except.error e2
              | Except.ok decompressed =>
                  bytes_to_zarr_vector
                    (((get_codec_equivalents md).findSome? AnyCodec.bytes_endian).getD
                      Endian.Little)
                    md.dtype.data_type decompressed
        | none =>
            Except.ok (fill_chunk (md.fill_value.to_zarr_value md.dtype.data_type) md.chunks))
      rw [show (match some raw with
        | some raw2 =>
            if raw2.isEmpty then
              Except.ok (fill_chunk (md.fill_value.to_zarr_value md.dtype.data_type) md.chunks)
            else
              match apply_codec_pipeline lib (get_codec_equivalents md) raw2 with
              | Except.error e2 => Except.error e2
              | Except.ok decompressed =>
                  bytes_to_zarr_vector
                    (((get_codec_equivalents md).findSome? AnyCodec.bytes_endian).getD
                      Endian.Little)
                    md.dtype.data_type decompressed
        | none =>
            Except.ok (fill_chunk (md.fill_value.to_zarr_value md.dtype.data_type) md.chunks))
        = if raw.isEmpty then
            Except.ok (fill_chunk (md.fill_value.to_zarr_value md.dtype.data_type) md.chunks)
          else
            match apply_codec_pipeline lib (get_codec_equivalents md) raw with
            | Except.error e2 => Except.error e2
            | Except.ok decompressed =>
                bytes_to_zarr_vector
                  (((get_codec_equivalents md).findSome? AnyCodec.bytes_endian).getD
                    Endian.Little)
                  md.dtype.data_type decompressed from rfl]
      rw [hre]
      simp
    cases hp : apply_codec_pipeline lib (get_codec_equivalents md) raw with
    | error e2 =>
        rw [hp] at herr2
        injection herr2 with he
        exact Or.inl (by rw [he])
    | ok buf =>
        rw [hp] at herr2
        have hbv := bytes_to_zarr_vector_error _ _ _ _ herr2
        exact Or.inr ⟨buf, rfl, hbv.1, hbv.2⟩

/-- C4 witness: arity mismatch yields the Other error; a missing blob
yields the filled chunk of length product(chunk_shape). -/
theorem c4_chunk_getter_error_policy_amended_witness :
    create_v2_chunk_getter trivLib (fun _ => .ok none) "p" c4Md [0, 0]
      = .error (.Other "Key dimensionality must match array shape")
    ∧ create_v2_chunk_getter trivLib (fun _ => .ok none) "p" c4Md [0]
      = .ok (fill_chunk (c4Md.fill_value.to_zarr_value c4Md.dtype.data_type) c4Md.chunks)
    ∧ (fill_chunk (c4Md.fill_value.to_zarr_value c4Md.dtype.data_type) c4Md.chunks).len
        = c4Md.chunks.prod :=
  ⟨(c4_chunk_getter_error_policy_amended trivLib (fun _ => .ok none) "p" c4Md [0, 0]).1
      (by decide),
   ((c4_chunk_getter_error_policy_amended trivLib (fun _ => .ok none) "p" c4Md [0]).2.2.1
      none (by decide) (by decide) rfl (Or.inl rfl)).1,
   ((c4_chunk_getter_error_policy_amended trivLib (fun _ => .ok none) "p" c4Md [0]).2.2.1
      none (by decide) (by decide) rfl (Or.inl rfl)).2⟩

-- ---------------------------------------------------------------------------
-- C8
-- ---------------------------------------------------------------------------

theorem mapError_ok {ε ε' α : Type} (f : ε → ε') (r : Except ε α) (a : α) :
    r.mapError f = .ok a ↔ r = .ok a := by
  cases r <;> simp [Except.mapError]

theorem leNat_u32LeBytes (n : Nat) : leNat (u32LeBytes n) = n % 2 ^ 32 := by
  simp only [leNat, u32LeBytes, List.foldr_cons, List.foldr_nil]
  omega

/-- C8: decode inverts encode for the gzip, zlib, zstd and lz4 codec
wrappers.  The compression algorithms themselves live in external crates
(flate2, zstd, lz4_flex) and are taken as hypotheses through their
documented decompress-of-compress contracts; the lz4 wrapper's 4-byte
little-endian length-prefix framing is the repository's own code and is
verified here (its `len as u32` prefix truncates, so the input must be
shorter than 2^32 bytes). -/
theorem c8_compressor_roundtrip (lib : ExtLib) (x : List Nat)
    (gc : GzipCodec) (zc : ZlibCodec) (sc : ZstdCodec) (lc : Lz4Codec)
    (hgzip : ∀ lvl y out, lib.gzipCompress lvl y = .ok out → lib.gzipDecompress out = .ok y)
    (hzlib : ∀ lvl y out, lib.zlibCompress lvl y = .ok out → lib.zlibDecompress out = .ok y)
    (hzstd : ∀ lvl y out, lib.zstdCompress lvl y = .ok out → lib.zstdDecompress out = .ok y)
    (hlz4 : ∀ y, lib.lz4BlockDecompress (lib.lz4BlockCompress y) y.length = .ok y)
    (hlen : x.length < 2 ^ 32) :
    (∀ out, GzipCodec.encode lib gc x = .ok out → GzipCodec.decode lib gc out = .ok x)
    ∧ (∀ out, ZlibCodec.encode lib zc x = .ok out → ZlibCodec.decode lib zc out = .ok x)
    ∧ (∀ out, ZstdCodec.encode lib sc x = .ok out → ZstdCodec.decode lib sc out = .ok x)
    ∧ (∀ out, Lz4Codec.encode lib lc x = .ok out → Lz4Codec.decode lib lc out = .ok x) := by
  refine ⟨?_, ?_, ?_, ?_⟩
  · intro out h
    unfold GzipCodec.encode at h
    unfold GzipCodec.decode
    rw [(mapError_ok _ _ _).2 (hgzip _ x out ((mapError_ok _ _ _).1 h))]
  · intro out h
    unfold ZlibCodec.encode at h
    unfold ZlibCodec.decode
    rw [(mapError_ok _ _ _).2 (hzlib _ x out ((mapError_ok _ _ _).1 h))]
  · intro out h
    unfold ZstdCodec.encode at h
    unfold ZstdCodec.decode
    rw [(mapError_ok _ _ _).2 (hzstd _ x out ((mapError_ok _ _ _).1 h))]
  · intro out h
    unfold Lz4Codec.encode at h
    injection h with h
    subst h
    unfold Lz4Codec.decode
    have hprefLen : (u32LeBytes x.length).length = 4 := rfl
    have hlen4 : ¬ (u32LeBytes x.length ++ lib.lz4BlockCompress x).length < 4 := by
      rw [List.length_append, hprefLen]
      omega
    rw [if_neg hlen4, List.take_left' hprefLen, List.drop_left' hprefLen,
      leNat_u32LeBytes, Nat.mod_eq_of_lt hlen]
    dsimp only
    rw [hlz4 x]
    simp

/-- C8 witness: the contracts hold for the trivial library instantiation
and the round-trips evaluate on the concrete input [9, 8, 7]. -/
theorem c8_compressor_roundtrip_witness :
    (∀ out, GzipCodec.encode trivLib { level := 5 } [9, 8, 7] = .ok out →
      GzipCodec.decode trivLib { level := 5 } out = .ok [9, 8, 7])
    ∧ (∀ out, ZlibCodec.encode trivLib { level := 1 } [9, 8, 7] = .ok out →
      ZlibCodec.decode trivLib { level := 1 } out = .ok [9, 8, 7])
    ∧ (∀ out, ZstdCodec.encode trivLib { level := 5 } [9, 8, 7] = .ok out →
      ZstdCodec.decode trivLib { level := 5 } out = .ok [9, 8, 7])
    ∧ (∀ out, Lz4Codec.encode trivLib { acceleration := 1 } [9, 8, 7] = .ok out →
      Lz4Codec.decode trivLib { acceleration := 1 } out = .ok [9, 8, 7]) :=
  c8_compressor_roundtrip trivLib [9, 8, 7] { level := 5 } { level := 1 } { level := 5 }
    { acceleration := 1 }
    (fun _ y out h => by injection h with h; rw [← h]; rfl)
    (fun _ y out h => by injection h with h; rw [← h]; rfl)
    (fun _ y out h => by injection h with h; rw [← h]; rfl)
    (fun y => by simp [trivLib, List.take_length])
    (by decide)

-- ---------------------------------------------------------------------------
-- C9
-- ---------------------------------------------------------------------------

/-- C9: a v2 compressor whose lower-cased id is not one of the eight
known ids converts to the empty codec list, so the array's full codec
list is just the appended Bytes(endian) codec; the decode pipeline is
then the identity on the raw blob bytes, and no error - in particular no
Codec error - is raised for the unknown id at open or decode time. -/
theorem c9_unknown_compressor_identity (lib : ExtLib) (md : ZarrV2Metadata)
    (comp : ZarrCompressor) (raw : List Nat)
    (hcomp : md.compressor = some comp)
    (hid : ¬ strToLower comp.id
      ∈ ["gzip", "blosc", "zlib", "lz4", "lz4hc", "blosclz", "zstd", "snappy"]) :
    compressor_to_codecs comp = []
    ∧ get_codec_equivalents md = [AnyCodec.Bytes { endian := some md.dtype.byte_order }]
    ∧ apply_codec_pipeline lib (get_codec_equivalents md) raw = .ok raw := by
  have h := hid
  simp only [List.mem_cons, List.not_mem_nil, or_false] at h
  push_neg at h
  obtain ⟨h1, h2, h3, h4, h5, h6, h7, h8⟩ := h
  have hempty : compressor_to_codecs comp = [] := by
    unfold compressor_to_codecs
    rw [if_neg h1, if_neg h2, if_neg h3, if_neg h4, if_neg h5, if_neg h6, if_neg h7,
      if_neg h8]
  have hcodecs : get_codec_equivalents md
      = [AnyCodec.Bytes { endian := some md.dtype.byte_order }] := by
    have hstep : get_codec_equivalents md
        = (match md.compressor with
           | some c => compressor_to_codecs c
           | none => []) ++ [AnyCodec.Bytes { endian := some md.dtype.byte_order }] := rfl
    rw [hstep, hcomp]
    rw [show (match some comp with
         | some c => compressor_to_codecs c
         | none => ([] : List AnyCodec)) = compressor_to_codecs comp from rfl]
    rw [hempty]
    rfl
  refine ⟨hempty, hcodecs, ?_⟩
  rw [hcodecs]
  rfl

/-- C9 witness: the unknown compressor id "bz2" on a little-endian f32
array. -/
theorem c9_unknown_compressor_identity_witness :
    compressor_to_codecs { id := "bz2", config := [] } = []
    ∧ get_codec_equivalents c9Md
        = [AnyCodec.Bytes { endian := some c9Md.dtype.byte_order }]
    ∧ apply_codec_pipeline trivLib (get_codec_equivalents c9Md) [5, 6] = .ok [5, 6] :=
  c9_unknown_compressor_identity trivLib c9Md { id := "bz2", config := [] } [5, 6] rfl
    (by decide)

-- ---------------------------------------------------------------------------
-- C10
-- ---------------------------------------------------------------------------

theorem mem_assocInsert {α : Type} (m : List (String × α)) (k : String) (v : α)
    (p : String × α) (h : p ∈ assocInsert m k v) : p = (k, v) ∨ p ∈ m := by
  unfold assocInsert at h
  by_cases hc : m.any (fun kv => kv.1 = k) = true
  · rw [if_pos hc] at h
    obtain ⟨q, hq, hmap⟩ := List.mem_map.1 h
    by_cases hqk : q.1 = k
    · left
      rw [← hmap, if_pos hqk]
    · right
      rw [← hmap, if_neg hqk]
      exact hq
  · rw [if_neg hc] at h
    rcases List.mem_append.1 h with h2 | h2
    · right; exact h2
    · left
      simpa using h2

theorem consolidatedStep_cases (lib : ExtLib) (acc : List (String × ZarrV2Metadata))
    (key : String) (value : Json) (p : String × ZarrV2Metadata)
    (h : p ∈ consolidatedStep lib acc key value) :
    p ∈ acc
    ∨ (stripZarrayName key = p.1 ∧ ZarrV2Metadata.parse lib value = .ok p.2) := by
  unfold consolidatedStep at h
  split at h
  · exact Or.inl h
  · split at h
    · -- not a .zarray key: best-effort attempt on objects with a shape field
      split at h
      · split at h
        · split at h
          · rcases mem_assocInsert _ _ _ _ h with h2 | h2
            · right
              obtain ⟨rfl⟩ : p = (stripZarrayName key, _) := h2
              constructor
              · rfl
              · assumption
            · exact Or.inl h2
          · exact Or.inl h
        · exact Or.inl h
      · exact Or.inl h
    · -- a .zarray key: parse, silently skipping failures
      split at h
      · rcases mem_assocInsert _ _ _ _ h with h2 | h2
        · right
          obtain ⟨rfl⟩ : p = (stripZarrayName key, _) := h2
          constructor
          · rfl
          · assumption
        · exact Or.inl h2
      · exact Or.inl h

theorem consolidated_mem (lib : ExtLib) :
    ∀ (entries : List (String × Json)) (acc : List (String × ZarrV2Metadata))
      (p : String × ZarrV2Metadata),
      p ∈ entries.foldl (fun acc2 kv => consolidatedStep lib acc2 kv.1 kv.2) acc →
      p ∈ acc ∨ ∃ key value, (key, value) ∈ entries ∧ stripZarrayName key = p.1
        ∧ ZarrV2Metadata.parse lib value = .ok p.2 := by
  intro entries
  induction entries with
  | nil => intro acc p h; exact Or.inl h
  | cons kv rest ih =>
      intro acc p h
      rw [List.foldl_cons] at h
      rcases ih _ p h with h2 | ⟨key, value, hmem, hname, hparse⟩
      · rcases consolidatedStep_cases lib acc kv.1 kv.2 p h2 with h3 | ⟨hname, hparse⟩
        · exact Or.inl h3
        · exact Or.inr ⟨kv.1, kv.2, List.mem_cons_self kv rest, hname, hparse⟩
      · exact Or.inr ⟨key, value, List.mem_cons_of_mem kv hmem, hname, hparse⟩

/-- C10: consolidated-metadata parsing never fails because of a bad
individual entry.  For every JSON object input carrying a `metadata`
object, the parse succeeds, and every binding of the resulting
name-to-metadata map comes from a metadata entry whose value parsed
successfully as v2 array metadata - so an entry whose key ends in
`.zarray` but whose value fails to parse is silently omitted rather than
surfacing an error. -/
theorem c10_consolidated_parse_total (lib : ExtLib) (fields mfields : List (String × Json))
    (hm : jsonGet fields "metadata" = some (Json.obj mfields)) :
    ∃ r, ZarrConsolidatedMetadata.parse lib (Json.obj fields) = .ok r
      ∧ ∀ p, p ∈ r.metadata → ∃ key value, (key, value) ∈ mfields
          ∧ stripZarrayName key = p.1 ∧ ZarrV2Metadata.parse lib value = .ok p.2 := by
  have hstep : ZarrConsolidatedMetadata.parse lib (Json.obj fields)
      = (match (jsonGet fields "metadata").bind Json.asObj with
         | none => Except.error (ZarrError.Metadata "Missing metadata field")
         | some metadataObj =>
             Except.ok
               { zarr_consolidated_format :=
                   ((jsonGet fields "zarr_consolidated_format").bind Json.asU64).getD 1,
                 metadata := metadataObj.foldl
                   (fun acc kv => consolidatedStep lib acc kv.1 kv.2) [] }) := rfl
  refine ⟨⟨((jsonGet fields "zarr_consolidated_format").bind Json.asU64).getD 1,
    mfields.foldl (fun acc kv => consolidatedStep lib acc kv.1 kv.2) []⟩, ?_, ?_⟩
  · rw [hstep, hm]
    rfl
  · intro p hmem
    rcases consolidated_mem lib mfields [] p hmem with h | h
    · exact absurd h (List.not_mem_nil p)
    · exact h

/-- C10 witness: a metadata object with one good `.zarray` entry and one
whose value fails v2 parsing; the parse succeeds and every binding comes
from a successfully parsed entry. -/
theorem c10_consolidated_parse_total_witness :
    ∃ r, ZarrConsolidatedMetadata.parse trivLib
        (Json.obj [("metadata", Json.obj [("a/.zarray", c1Json), ("b/.zarray", Json.null)])])
      = .ok r
      ∧ ∀ p, p ∈ r.metadata → ∃ key value,
          (key, value) ∈ [("a/.zarray", c1Json), ("b/.zarray", Json.null)]
          ∧ stripZarrayName key = p.1 ∧ ZarrV2Metadata.parse trivLib value = .ok p.2 :=
  c10_consolidated_parse_total trivLib
    [("metadata", Json.obj [("a/.zarray", c1Json), ("b/.zarray", Json.null)])]
    [("a/.zarray", c1Json), ("b/.zarray", Json.null)] rfl

end SimpleZarr














